import Mathlib

/-!
# esp_adc: sample pipeline and command dispatcher

A shallow embedding of `main/main.cpp` (the firmware of a three-channel
ADS1115 logger) and theorems about it.

Conventions of the embedding:

* `std::string` is a list of characters (`Str`), one `Char` per `char`;
  `std::string::npos` is `none`.
* An `int` whose intermediate values can be negative is an `Int` with C's truncating
  `%` (`Int.tmod`); a counter that only counts up from zero is a `Nat`; a difference of
  `size_t` values is reduced modulo `2 ^ 32`.
* `float` values are exact rationals.
* Global variables are the fields of `State`; a function that reads the outside
  world (mutex acquisition, `fopen`, the clock, ...) takes the outcome as an
  argument.
* The sensor driver is embedded on its own state `Sensor`, with the behaviour of the
  I2C bus given as the outcome of each transaction in turn (`Bus`); the sample pipeline
  and the dispatcher take the result of `read_adc` as an argument (`AdcRead`).
-/

namespace EspAdc

/-! ## Definitions -/

/-- A `std::string`, as the sequence of its `char`s. -/
abbrev Str := List Char

def MAX_FILENAME_LEN : Nat := 32
def SD_BUFFER_SIZE : Nat := 860
def RT_BUFFER_SIZE : Nat := 256

/-- The struct `DataPoint`: a timestamp in milliseconds and three channel values. -/
structure DataPoint where
  timestamp_ms : Nat
  adc0 : ℚ
  adc1 : ℚ
  adc2 : ℚ
deriving DecidableEq

/-- A zero-initialised `DataPoint` (static storage). -/
def DataPoint.zero : DataPoint := ⟨0, 0, 0, 0⟩

/-! ### Ring cache (`rt_buffer`, `rt_head`, `rt_has_data`) -/

/-- The three globals of the live-value ring cache. -/
structure RtCache where
  rt_buffer : List DataPoint
  rt_head : Int
  rt_has_data : Bool
deriving DecidableEq

/-- The cache at start-up: a zeroed array of `RT_BUFFER_SIZE` entries, head 0, no data. -/
def RtCache.init : RtCache :=
  { rt_buffer := List.replicate RT_BUFFER_SIZE DataPoint.zero
    rt_head := 0
    rt_has_data := false }

/-- The function `rt_push_sample`: store at `rt_head`, advance the head modulo the size. -/
def rt_push_sample (c : RtCache) (dp : DataPoint) : RtCache :=
  { rt_buffer := c.rt_buffer.set c.rt_head.toNat dp
    rt_head := (c.rt_head + 1).tmod (RT_BUFFER_SIZE : Int)
    rt_has_data := true }

/-- The function `rt_get_latest`: `none` is the `false` return; otherwise the entry
just before the head. An index outside the array (undefined in C) also gives `none`. -/
def rt_get_latest (c : RtCache) : Option DataPoint :=
  if !c.rt_has_data then none
  else
    let last := (c.rt_head - 1 + (RT_BUFFER_SIZE : Int)).tmod (RT_BUFFER_SIZE : Int)
    c.rt_buffer[last.toNat]?

/-- Pushing a sequence of samples, first to last. -/
def rt_push_all (c : RtCache) (xs : List DataPoint) : RtCache :=
  xs.foldl rt_push_sample c

/-- The state of the ring cache after pushing `xs` onto the initial cache: the head is
`N mod 256`, the last `min N 256` samples sit at their positions modulo 256, the other
slots are still zero. -/
structure RtInv (xs : List DataPoint) (c : RtCache) : Prop where
  len : c.rt_buffer.length = 256
  head : c.rt_head = ((xs.length % 256 : Nat) : Int)
  has : c.rt_has_data = !xs.isEmpty
  recent : ∀ j, j < xs.length → xs.length ≤ j + 256 → c.rt_buffer[j % 256]? = xs[j]?
  fresh : ∀ i, xs.length ≤ i → i < 256 → c.rt_buffer[i]? = some DataPoint.zero

/-! ### `std::string` helpers -/

/-- The member `find(c)`: position of the first `c`. -/
def find (s : Str) (c : Char) : Option Nat :=
  match s with
  | [] => none
  | x :: xs => if x = c then some 0 else (find xs c).map (· + 1)

/-- The member `rfind(c)` (also `find_last_of(c)`): position of the last `c`. -/
def rfind (s : Str) (c : Char) : Option Nat :=
  match s with
  | [] => none
  | x :: xs =>
    match rfind xs c with
    | some i => some (i + 1)
    | none => if x = c then some 0 else none

/-- The member `find_first_not_of(set)`. -/
def find_first_not_of (s : Str) (set : Str) : Option Nat :=
  match s with
  | [] => none
  | x :: xs => if x ∈ set then (find_first_not_of xs set).map (· + 1) else some 0

/-- The member `find_last_not_of(set)`. -/
def find_last_not_of (s : Str) (set : Str) : Option Nat :=
  match s with
  | [] => none
  | x :: xs =>
    match find_last_not_of xs set with
    | some i => some (i + 1)
    | none => if x ∈ set then none else some 0

/-- The member `substr(pos, n)`; `none` is the `std::out_of_range` it throws when
`pos > size()`. -/
def substr (s : Str) (pos n : Nat) : Option Str :=
  if pos > s.length then none else some ((s.drop pos).take n)

/-- The member `substr(pos)` (count `npos`). -/
def substr_from (s : Str) (pos : Nat) : Option Str :=
  if pos > s.length then none else some (s.drop pos)

/-- The test `s.rfind(p, 0) == 0`: `s` begins with `p`. -/
def starts_with (s p : Str) : Bool := p.isPrefixOf s

/-- Subtraction of two `size_t` values (32 bits on this target). -/
def size_sub (a b : Nat) : Nat := (a + 2 ^ 32 - b % 2 ^ 32) % 2 ^ 32

/-- The characters `trim` removes. -/
def WHITESPACE : Str := [' ', '\r', '\n', '\t']

/-- The function `trim`. -/
def trim (s : Str) : Str :=
  match find_first_not_of s WHITESPACE with
  | none => []
  | some start =>
    match find_last_not_of s WHITESPACE with
    | some e => (s.drop start).take (e - start + 1)
    | none => s.drop start

/-! ### Number formatting (`std::to_string`, `%lu`, `%llu`, `%.1f`, `atoi`) -/

/-- An unsigned number in decimal (`%lu`, `%llu`, `std::to_string` of a non-negative `int`). -/
def fmt_dec (n : Nat) : Str := Nat.toDigits 10 n

/-- A number zero-padded to two digits (`%m`, `%d`, `%H`, `%M`, `%S` of `strftime`). -/
def fmt_pad2 (n : Nat) : Str := if n < 10 then '0' :: fmt_dec n else fmt_dec n

/-- Rounding a non-negative rational to the nearest integer, ties to even. -/
def round_half_even (r : ℚ) : Nat :=
  let f := r.floor.toNat
  let d := r - r.floor
  if d < 1 / 2 then f else if 1 / 2 < d then f + 1 else if f % 2 = 0 then f else f + 1

/-- The conversion `%.1f`. -/
def fmt_1f (q : ℚ) : Str :=
  let t := round_half_even (|q| * 10)
  (if q < 0 then ['-'] else []) ++ fmt_dec (t / 10) ++ ['.'] ++ fmt_dec (t % 10)

/-- Whether a character is a decimal digit. -/
def is_digit (c : Char) : Bool := decide ('0' ≤ c) && decide (c ≤ '9')

/-- The value of a string of decimal digits. -/
def decimal_value (v : Str) : Nat := v.foldl (fun acc c => acc * 10 + (c.toNat - '0'.toNat)) 0

/-- The call `atoi(v.c_str())` on a string of digits: the libc computes
`(int) strtol(v, NULL, 10)`, which saturates at `LONG_MAX = 2 ^ 31 - 1`. -/
def atoi (v : Str) : Int := ((min (decimal_value v) (2 ^ 31 - 1) : Nat) : Int)

/-! ### Sensor gain -/

/-- The enum `AdsGain`. -/
inductive AdsGain
  | GAIN_TWOTHIRDS | GAIN_ONE | GAIN_TWO | GAIN_FOUR | GAIN_EIGHT | GAIN_SIXTEEN
deriving DecidableEq, Repr

/-- The enum `AdsDataRate`. -/
inductive AdsDataRate
  | RATE_8SPS | RATE_16SPS | RATE_32SPS | RATE_64SPS
  | RATE_128SPS | RATE_250SPS | RATE_475SPS | RATE_860SPS
deriving DecidableEq, Repr

/-- The function `ads_gain_to_index`. -/
def ads_gain_to_index : AdsGain → Int
  | .GAIN_TWOTHIRDS => 0
  | .GAIN_ONE => 1
  | .GAIN_TWO => 2
  | .GAIN_FOUR => 3
  | .GAIN_EIGHT => 4
  | .GAIN_SIXTEEN => 5

/-- The function `index_to_ads_gain`; `none` is the `false` return. -/
def index_to_ads_gain (idx : Int) : Option AdsGain :=
  if idx = 0 then some .GAIN_TWOTHIRDS
  else if idx = 1 then some .GAIN_ONE
  else if idx = 2 then some .GAIN_TWO
  else if idx = 3 then some .GAIN_FOUR
  else if idx = 4 then some .GAIN_EIGHT
  else if idx = 5 then some .GAIN_SIXTEEN
  else none

/-- The function `parse_ads_gain`; `none` is the `false` return. -/
def parse_ads_gain (s : Str) : Option AdsGain :=
  let v := trim s
  if v = "2/3".toList ∨ v = "0.666".toList ∨ v = "0.667".toList then some .GAIN_TWOTHIRDS
  else if v = "1".toList ∨ v = "1x".toList ∨ v = "4.096".toList then some .GAIN_ONE
  else if v = "2".toList ∨ v = "2x".toList ∨ v = "2.048".toList then some .GAIN_TWO
  else if v = "4".toList ∨ v = "4x".toList ∨ v = "1.024".toList then some .GAIN_FOUR
  else if v = "8".toList ∨ v = "8x".toList ∨ v = "0.512".toList then some .GAIN_EIGHT
  else if v = "16".toList ∨ v = "16x".toList ∨ v = "0.256".toList then some .GAIN_SIXTEEN
  else none

/-! ### File names -/

/-- The fields of `struct tm` that `strftime` prints, with the ranges `localtime_r`
gives them (`tm_year` is an `int` counting from 1900, not negative for a time after
the epoch). -/
structure Tm where
  tm_year : Fin (2 ^ 31)
  tm_mon : Fin 12
  tm_mday : Fin 32
  tm_hour : Fin 24
  tm_min : Fin 60
  tm_sec : Fin 62

/-- What `default_recording_name` reads from the outside: `time(nullptr)`, the result of
`localtime_r` (`none` for a null pointer) and `esp_timer_get_time()` in microseconds. -/
structure Clock where
  now : Int
  localtime : Option Tm
  timer_us : Int

/-- The function `default_recording_name`: `data_%Y%m%d_%H%M%S.txt` from the wall clock,
or `data_<ms>.txt` from the uptime when the wall clock is not available. -/
def default_recording_name (clk : Clock) : Str :=
  match (if clk.now > 0 then clk.localtime else none) with
  | some tm =>
    "data_".toList ++ fmt_dec (tm.tm_year.val + 1900) ++ fmt_pad2 (tm.tm_mon.val + 1)
      ++ fmt_pad2 tm.tm_mday.val ++ ['_'] ++ fmt_pad2 tm.tm_hour.val ++ fmt_pad2 tm.tm_min.val
      ++ fmt_pad2 tm.tm_sec.val ++ ".txt".toList
  | none =>
    let ms : Nat := (clk.timer_us % 2 ^ 64).toNat / 1000
    "data_".toList ++ fmt_dec ms ++ ".txt".toList

/-- The character test of `sanitize_filename`. -/
def allowed_char (c : Char) : Bool :=
  (decide ('a' ≤ c) && decide (c ≤ 'z')) || (decide ('A' ≤ c) && decide (c ≤ 'Z'))
    || (decide ('0' ≤ c) && decide (c ≤ '9')) || c == '_' || c == '-' || c == '.'

/-- The function `sanitize_filename`. -/
def sanitize_filename (clk : Clock) (input : Str) : Str :=
  let out := input.filter allowed_char
  let out := if out.isEmpty then default_recording_name clk else out
  if out.length > MAX_FILENAME_LEN then out.take MAX_FILENAME_LEN else out

/-! ### Global state -/

/-- The struct `WifiSettings`. -/
structure WifiSettings where
  mode : Str
  ssid : Str
  pwd : Str
deriving DecidableEq

/-- The globals of `main.cpp` that the sample pipeline and the dispatcher use, together
with the two stores they write: the SD card (a flat map from the file name below the
mount point to the lines of the file) and the `wifi-settings` namespace of the NVS. -/
structure State where
  gain : AdsGain
  data_rate : AdsDataRate
  sampling_enabled : Bool
  is_recording : Bool
  ads_ready : Bool
  sd_mounted : Bool
  spi_bus_initialized : Bool
  current_file_name : Str
  wifi_mode : Str
  rt : RtCache
  sd_buffer : List DataPoint
  sd_buffer_index : Nat
  sd_mutex_held : Bool
  files : List (Str × List Str)
  nvs : Option WifiSettings
deriving DecidableEq

/-- The globals as initialised at start-up, before `app_main` probes the sensor and
mounts the card. -/
def State.init : State :=
  { gain := .GAIN_ONE
    data_rate := .RATE_860SPS
    sampling_enabled := false
    is_recording := false
    ads_ready := false
    sd_mounted := false
    spi_bus_initialized := false
    current_file_name := []
    wifi_mode := "own".toList
    rt := RtCache.init
    sd_buffer := List.replicate SD_BUFFER_SIZE DataPoint.zero
    sd_buffer_index := 0
    sd_mutex_held := false
    files := []
    nvs := none }

/-- What one call of `read_adc` hands back: the three filtered channel values, and
whether `ads_ready` is still set afterwards (a failed read clears it). -/
structure AdcRead where
  v0 : ℚ
  v1 : ℚ
  v2 : ℚ
  ready : Bool

/-- The sample built from a `read_adc` result and `esp_timer_get_time()`:
`{static_cast<uint32_t>(esp_timer_get_time() / 1000), v[0], v[1], v[2]}`. -/
def make_sample (timer_us : Int) (v : AdcRead) : DataPoint :=
  { timestamp_ms := ((timer_us.tdiv 1000) % 2 ^ 32).toNat, adc0 := v.v0, adc1 := v.v1, adc2 := v.v2 }

/-! ### Storage -/

/-- One line of a recording, as `fprintf(f, "%lu; %.1f; %.1f; %.1f\n", ...)` writes it
(without the final newline). -/
def format_line (dp : DataPoint) : Str :=
  fmt_dec dp.timestamp_ms ++ "; ".toList ++ fmt_1f dp.adc0 ++ "; ".toList ++ fmt_1f dp.adc1
    ++ "; ".toList ++ fmt_1f dp.adc2

/-- The lines of the file `name` on the card (`none`: no such file). -/
def file_lines (files : List (Str × List Str)) (name : Str) : Option (List Str) :=
  match files with
  | [] => none
  | (n, ls) :: rest => if n = name then some ls else file_lines rest name

/-- Writing through `fopen(path, "a")`: the lines go to the end of the file, which is
created when it does not exist. -/
def append_lines (files : List (Str × List Str)) (name : Str) (new : List Str) :
    List (Str × List Str) :=
  match files with
  | [] => [(name, new)]
  | (n, ls) :: rest =>
    if n = name then (n, ls ++ new) :: rest else (n, ls) :: append_lines rest name new

/-- The function `flush_buffer_to_sd`. `take` is the outcome of
`xSemaphoreTake(sd_mutex, 100 ms)` and `fopen_ok` that of `fopen(path, "a")`. -/
def flush_buffer_to_sd (take fopen_ok : Bool) (s : State) : State :=
  if !s.sd_mounted || s.current_file_name.isEmpty then s
  else if !take then s
  else
    let s := { s with sd_mutex_held := true }
    let count := s.sd_buffer_index
    if count > 0 then
      if !fopen_ok then
        { s with is_recording := false, sd_buffer_index := 0, sd_mutex_held := false }
      else
        let lines := (s.sd_buffer.take count).map format_line
        { s with files := append_lines s.files s.current_file_name lines
                 sd_buffer_index := 0
                 sd_mutex_held := false }
    else { s with sd_mutex_held := false }

/-- The function `init_sd_card`; the result is whether it returned `ESP_OK`. -/
def init_sd_card (spi_init_ok mount_ok : Bool) (s : State) : Bool × State :=
  if s.sd_mounted then (true, s)
  else if !s.spi_bus_initialized && !spi_init_ok then (false, s)
  else
    let s := { s with spi_bus_initialized := true }
    if mount_ok then (true, { s with sd_mounted := true }) else (false, s)

/-- The function `deinit_sd_card`. -/
def deinit_sd_card (s : State) : State :=
  let s := if s.sd_mounted then { s with sd_mounted := false } else s
  if s.spi_bus_initialized then { s with spi_bus_initialized := false } else s

/-- The function `delete_file`. `access` succeeds when the card has the file; `unlink_ok`
is the outcome of `unlink`. -/
def delete_file (unlink_ok : Bool) (s : State) (file_name : Str) : Str × State :=
  if !s.sd_mounted then ("Error: SD card not initialized.".toList, s)
  else if file_name.isEmpty then ("Error: Empty file name".toList, s)
  else if s.is_recording && s.current_file_name = file_name then
    ("Error: Unable delete current recording file!".toList, s)
  else if (file_lines s.files file_name).isSome then
    if unlink_ok then
      ("File ".toList ++ file_name ++ " deleted".toList,
        { s with files := s.files.filter (fun e => e.1 ≠ file_name) })
    else ("Error: Failed to delete ".toList ++ file_name, s)
  else ("Error: File ".toList ++ file_name ++ " not found".toList, s)

/-- The function `list_files`. `dir` is what `opendir`/`readdir`/`stat` give: `none` when
the directory cannot be opened, else the entries with their sizes (`none` when `stat`
fails). -/
def list_files (dir : Option (List (Str × Option Nat))) (s : State) : Str :=
  if !s.sd_mounted then "Error: SD card not initialized".toList
  else
    match dir with
    | none => "Error: Failed to open directory".toList
    | some entries =>
      let skip_prefixes : List Str :=
        ["System Volume Information".toList, "SYSTEM~".toList, "FSEVE~".toList,
          "SPOTL~".toList, "TRASH~".toList]
      entries.foldl (fun result e =>
        if e.1.head? = some '.' then result
        else if skip_prefixes.any (fun p => starts_with e.1 p) then result
        else
          match e.2 with
          | some size => result ++ (e.1 ++ [':'] ++ fmt_dec size ++ [';']).take 127
          | none => result ++ e.1 ++ [';']) []

/-! ### Acquisition loop -/

/-- What one iteration of `data_collection_task` reads from the outside: the result of
`read_adc`, the timer, the outcomes of `xSemaphoreTake(sd_mutex, 2 ms)` in the loop and
of `xSemaphoreTake(sd_mutex, 100 ms)` in the flush, and the outcome of `fopen`. -/
structure CycleIO where
  adc : AdcRead
  timer_us : Int
  take_push : Bool
  take_flush : Bool
  fopen_ok : Bool

/-- The sample an acquisition cycle produces. -/
def CycleIO.sample (io : CycleIO) : DataPoint := make_sample io.timer_us io.adc

/-- The block under `xSemaphoreTake(sd_mutex, 2 ms)` in `data_collection_task`: store the
sample in the write batch when there is room; the flag is the local `full`. -/
def batch_append (s : State) (dp : DataPoint) : State × Bool :=
  let s := { s with sd_mutex_held := true }
  if s.sd_buffer_index < SD_BUFFER_SIZE then
    let s := { s with sd_buffer := s.sd_buffer.set s.sd_buffer_index dp
                      sd_buffer_index := s.sd_buffer_index + 1 }
    ({ s with sd_mutex_held := false }, decide (s.sd_buffer_index ≥ SD_BUFFER_SIZE))
  else ({ s with sd_mutex_held := false }, true)

/-- Whether the acquisition cycle `io` run in state `s` calls `flush_buffer_to_sd`. -/
def cycle_flushes (io : CycleIO) (s : State) : Bool :=
  s.is_recording && s.sd_mounted && io.take_push && (batch_append s io.sample).2

/-- One acquisition cycle: the body of the loop of `data_collection_task` under
`if (sampling_enabled && ads_ready)`. -/
def acquisition_cycle (io : CycleIO) (s : State) : State :=
  let dp := io.sample
  let s := { s with ads_ready := s.ads_ready && io.adc.ready, rt := rt_push_sample s.rt dp }
  if s.is_recording && s.sd_mounted then
    if io.take_push then
      let r := batch_append s dp
      if r.2 then flush_buffer_to_sd io.take_flush io.fopen_ok r.1 else r.1
    else s
  else s

/-- One iteration of the loop of `data_collection_task`. -/
def data_collection_step (io : CycleIO) (s : State) : State :=
  if s.sampling_enabled && s.ads_ready then acquisition_cycle io s else s

/-- Acquisition cycles run one after the other. -/
def run_cycles (s : State) (ios : List CycleIO) : State :=
  ios.foldl (fun st io => acquisition_cycle io st) s

/-- The number of calls of `flush_buffer_to_sd` made by the cycles `ios` from state `s`. -/
def count_flushes (s : State) (ios : List CycleIO) : Nat :=
  match ios with
  | [] => 0
  | io :: rest => (if cycle_flushes io s then 1 else 0) + count_flushes (acquisition_cycle io s) rest

/-! ### Command dispatcher -/

/-- What one call of `process_request` reads from the outside. -/
structure Env where
  adc : AdcRead
  clock : Clock
  sd_take : Bool
  fopen_ok : Bool
  nvs_open_ok : Bool
  unlink_ok : Bool
  spi_init_ok : Bool
  mount_ok : Bool
  ap_ip : Option Str
  sta_ip : Option Str
  dir : Option (List (Str × Option Nat))

/-- How a call of `process_request` ends: with a response line, in `esp_restart()` (reached
from `configure_wifi`, whose argument is recorded), or in the `std::out_of_range` thrown
by `substr`. -/
inductive Outcome
  | reply (response : Str) (s : State)
  | restart (settings : WifiSettings) (s : State)
  | out_of_range (s : State)
deriving DecidableEq

/-- The state a call leaves behind. -/
def Outcome.state : Outcome → State
  | .reply _ s => s
  | .restart _ s => s
  | .out_of_range s => s

/-- The member `c_str()` as a string argument of a C function: the characters before the
first NUL. -/
def c_str (s : Str) : Str := s.takeWhile (fun c => c ≠ Char.ofNat 0)

/-- The function `std::to_string(int)`. -/
def to_string (i : Int) : Str := if i < 0 then '-' :: fmt_dec i.natAbs else fmt_dec i.toNat

/-- The function `save_wifi_settings`. -/
def save_wifi_settings (nvs_open_ok : Bool) (s : State) (settings : WifiSettings) : State :=
  if !nvs_open_ok then s
  else { s with nvs := some ⟨c_str settings.mode, c_str settings.ssid, c_str settings.pwd⟩ }

/-- The function `configure_wifi`: persist, then `esp_restart()`, which does not return. -/
def configure_wifi (nvs_open_ok : Bool) (s : State) (wifi ssid pwd : Str) : Outcome :=
  let new_settings : WifiSettings := ⟨wifi, ssid, pwd⟩
  .restart new_settings (save_wifi_settings nvs_open_ok s new_settings)

/-- The function `get_ip`. -/
def get_ip (env : Env) (s : State) : Str :=
  if s.wifi_mode = "own".toList then
    match env.ap_ip with
    | some ip => ip
    | none => "192.168.4.1".toList
  else
    match env.sta_ip with
    | some ip => ip
    | none => "0.0.0.0".toList

/-- The function `check_recording_status`. -/
def check_recording_status (s : State) : Str :=
  if s.is_recording then "Recording to ".toList ++ s.current_file_name
  else "Not recording".toList

/-- The function `read_adc_pretty`. -/
def read_adc_pretty (env : Env) (s : State) : Str × State :=
  if !s.ads_ready then ("ADS1115 not ready".toList, s)
  else
    let s := if !s.sampling_enabled then { s with sampling_enabled := true } else s
    let r : DataPoint × State :=
      match rt_get_latest s.rt with
      | some dp => (dp, s)
      | none =>
        let dp := make_sample env.clock.timer_us env.adc
        (dp, { s with ads_ready := s.ads_ready && env.adc.ready, rt := rt_push_sample s.rt dp })
    (("ADC0: ".toList ++ fmt_1f r.1.adc0 ++ " mV; ADC1: ".toList ++ fmt_1f r.1.adc1
      ++ " mV; ADC2: ".toList ++ fmt_1f r.1.adc2 ++ " mV;".toList).take 95, r.2)

/-- The `adsGain=` branch of `process_request`, after the readiness test. -/
def set_gain_command (s : State) (command : Str) : Outcome :=
  match substr_from command 8 with
  | none => .out_of_range s
  | some val =>
    let is_number := !val.isEmpty && val.all is_digit
    let ok := if is_number then index_to_ads_gain (atoi val) else parse_ads_gain val
    match ok with
    | none =>
      .reply ("Error: Invalid gain value '".toList ++ val
        ++ "'. Use index 0..5 or 2/3,1,2,4,8,16".toList) s
    | some gain =>
      let was_sampling := s.sampling_enabled
      let s := { s with sampling_enabled := false }
      let s := { s with gain := gain }
      let to_idx := ads_gain_to_index s.gain
      let s := { s with sampling_enabled := was_sampling }
      .reply (to_string to_idx) s

/-- The `wifi=` branch of `process_request`, after the recording test. -/
def wifi_command (env : Env) (s : State) (command : Str) : Outcome :=
  match find command ';', rfind command ';' with
  | some sep1, some sep2 =>
    if sep2 ≤ sep1 then .reply "Error: Invalid wifi command".toList s
    else
      match substr command 5 (size_sub sep1 5) with
      | none => .out_of_range s
      | some wifi =>
        match substr command (sep1 + 6) (size_sub sep2 (sep1 + 6)) with
        | none => .out_of_range s
        | some ssid =>
          match substr_from command (sep2 + 5) with
          | none => .out_of_range s
          | some pwd => configure_wifi env.nvs_open_ok s wifi ssid pwd
  | _, _ => .reply "Error: Invalid wifi command".toList s

/-- The name a `start=` command records to, from the text after `start=`. -/
def recording_name (clk : Clock) (arg : Str) : Option Str :=
  let name := trim arg
  let name := if name.isEmpty || name = ['/'] then default_recording_name clk else name
  let name :=
    match rfind name '/' with
    | some slash => substr_from name (slash + 1)
    | none => some name
  name.map (sanitize_filename clk)

/-- The `start=` branch of `process_request`. -/
def start_command (env : Env) (s : State) (command : Str) : Outcome :=
  if !s.sd_mounted then .reply "Error: SD card not initialized.".toList s
  else if s.is_recording then
    .reply ("Error: Unable to start new recording due to ".toList ++ s.current_file_name) s
  else
    match (substr_from command 6).bind (recording_name env.clock) with
    | none => .out_of_range s
    | some name =>
      let s := { s with current_file_name := name }
      let s := { s with is_recording := true }
      let s := { s with sampling_enabled := true }
      .reply ("Recording started in ".toList ++ s.current_file_name) s

/-- The `stop` branch of `process_request`. -/
def stop_command (env : Env) (s : State) : Outcome :=
  let s := { s with is_recording := false }
  let s := flush_buffer_to_sd env.sd_take env.fopen_ok s
  let response := "Recording stopped in ".toList ++ s.current_file_name
  .reply response { s with current_file_name := [] }

/-- The `deinitSD` branch of `process_request`. -/
def deinit_command (env : Env) (s : State) : Outcome :=
  if s.sd_mounted then
    let s :=
      if s.is_recording then
        flush_buffer_to_sd env.sd_take env.fopen_ok { s with is_recording := false }
      else s
    .reply "SD card deinitialized. Safe to remove.".toList (deinit_sd_card s)
  else .reply "SD card is already deinitialized.".toList s

/-- The `initSD` branch of `process_request`. -/
def init_command (env : Env) (s : State) : Outcome :=
  if !s.sd_mounted then
    let r := init_sd_card env.spi_init_ok env.mount_ok s
    if r.1 then .reply "SD card initialized.".toList r.2
    else .reply "Failed to initialize SD card.".toList r.2
  else .reply "SD card is already initialized.".toList s

/-- The function `process_request`. -/
def process_request (env : Env) (s : State) (raw_command : Str) : Outcome :=
  let command := trim raw_command
  if command = "adc".toList then
    let r := read_adc_pretty env s
    .reply r.1 r.2
  else if command = "ip".toList then .reply (get_ip env s) s
  else if command = "adsGain".toList then
    if !s.ads_ready then .reply "ADS1115 not ready".toList s
    else .reply (to_string (ads_gain_to_index s.gain)) s
  else if starts_with command "adsGain=".toList then
    if !s.ads_ready then .reply "ADS1115 not ready".toList s
    else set_gain_command s command
  else if starts_with command "wifi=".toList then
    if s.is_recording then .reply "Error: Unable setup wifi during recording!".toList s
    else wifi_command env s command
  else if starts_with command "start=".toList then start_command env s command
  else if command = "stop".toList then stop_command env s
  else if starts_with command "delete=".toList then
    match substr_from command 7 with
    | none => .out_of_range s
    | some file_name =>
      let r := delete_file env.unlink_ok s file_name
      .reply r.1 r.2
  else if command = "files".toList then .reply (list_files env.dir s) s
  else if command = "checkRecording".toList then .reply (check_recording_status s) s
  else if command = "deinitSD".toList then deinit_command env s
  else if command = "initSD".toList then init_command env s
  else .reply "command not found".toList s

/-- A gain index as the command grammar words it ("an index 0..5"): a non-empty string
of decimal digits whose value is at most 5. -/
def is_gain_index (v : Str) : Bool := !v.isEmpty && v.all is_digit && decide (decimal_value v ≤ 5)

/-- The character set `[A-Za-z0-9_.-]` of the command grammar. -/
def in_name_charset (c : Char) : Prop :=
  ('A' ≤ c ∧ c ≤ 'Z') ∨ ('a' ≤ c ∧ c ≤ 'z') ∨ ('0' ≤ c ∧ c ≤ '9') ∨ c = '_' ∨ c = '.' ∨ c = '-'

instance (c : Char) : Decidable (in_name_charset c) := by
  unfold in_name_charset; infer_instance

/-- The part of a string after its last `/` (the whole string when it has none). -/
def after_last_slash (s : Str) : Str := s.rtakeWhile (fun c => c != '/')

/-! ### Sample inputs -/

/-- A wall clock reading 2024-01-05 07:08:09. -/
def demo_clock : Clock := ⟨1700000000, some ⟨124, 0, 5, 7, 8, 9⟩, 123456789⟩

/-- An outside world in which every call succeeds. -/
def demo_env : Env :=
  { adc := ⟨1, 2, 3, true⟩, clock := demo_clock, sd_take := true, fopen_ok := true,
    nvs_open_ok := true, unlink_ok := true, spi_init_ok := true, mount_ok := true,
    ap_ip := none, sta_ip := none, dir := none }

/-- The state after start-up with the sensor found and the card mounted. -/
def demo_idle : State := { State.init with ads_ready := true, sd_mounted := true }

/-- A state in which a recording to `log1` is running. -/
def demo_recording : State :=
  { demo_idle with is_recording := true, sampling_enabled := true,
                   current_file_name := "log1".toList }

/-! ### Sensor driver -/

def OVERSAMPLE : Nat := 1

/-- The constant `EMA_ALPHA = 0.25f`. -/
def EMA_ALPHA : ℚ := 1 / 4

/-- The values of `esp_err_t` that the driver returns; every error code of the I2C
driver is represented by `ESP_FAIL`. -/
inductive esp_err_t
  | ESP_OK | ESP_FAIL | ESP_ERR_INVALID_STATE | ESP_ERR_TIMEOUT
deriving DecidableEq, Repr

/-- The outcome of one bus transaction: the bus mutex is not acquired in time, the
transfer fails, or it succeeds (with the two bytes read, as one 16-bit word). -/
inductive BusReply
  | mutex_timeout
  | fail
  | ok (word : Nat)
deriving DecidableEq

/-- The behaviour of the sensor bus: the outcome of the `n`-th transaction. -/
abbrev Bus := Nat → BusReply

/-- The globals of the sensor driver: `g_ads.gain`, `g_ads.data_rate`, `ads_ready`,
`ads_error_logged`, and the number of bus transactions made so far. -/
structure Sensor where
  gain : AdsGain
  data_rate : AdsDataRate
  ads_ready : Bool
  ads_error_logged : Bool
  bus_pos : Nat
deriving DecidableEq

/-- The function `ads_gain_lsb_mv`: `span / 32768 * 1000`. -/
def ads_gain_lsb_mv : AdsGain → ℚ
  | .GAIN_TWOTHIRDS => 6144 / 1000 / 32768 * 1000
  | .GAIN_ONE => 4096 / 1000 / 32768 * 1000
  | .GAIN_TWO => 2048 / 1000 / 32768 * 1000
  | .GAIN_FOUR => 1024 / 1000 / 32768 * 1000
  | .GAIN_EIGHT => 512 / 1000 / 32768 * 1000
  | .GAIN_SIXTEEN => 256 / 1000 / 32768 * 1000

/-- The numeric value of an `AdsDataRate` enumerator. -/
def ads_data_rate_index : AdsDataRate → Nat
  | .RATE_8SPS => 0
  | .RATE_16SPS => 1
  | .RATE_32SPS => 2
  | .RATE_64SPS => 3
  | .RATE_128SPS => 4
  | .RATE_250SPS => 5
  | .RATE_475SPS => 6
  | .RATE_860SPS => 7

/-- The function `ads_write_reg`. The bus recovery after a failed transfer changes
nothing that the driver reads back. -/
def ads_write_reg (bus : Bus) (s : Sensor) (_reg _value : Nat) : esp_err_t × Sensor :=
  if !s.ads_ready then (.ESP_ERR_INVALID_STATE, s)
  else
    match bus s.bus_pos with
    | .mutex_timeout => (.ESP_ERR_TIMEOUT, { s with bus_pos := s.bus_pos + 1 })
    | .ok _ => (.ESP_OK, { s with bus_pos := s.bus_pos + 1 })
    | .fail => (.ESP_FAIL, { s with bus_pos := s.bus_pos + 1, ads_ready := false })

/-- The function `ads_read_reg`, its loop of two attempts unrolled. `value` is the
reference argument: it comes back unchanged unless a transfer succeeds. -/
def ads_read_reg (bus : Bus) (s : Sensor) (_reg value : Nat) : esp_err_t × Nat × Sensor :=
  if !s.ads_ready then (.ESP_ERR_INVALID_STATE, value, s)
  else
    match bus s.bus_pos with
    | .mutex_timeout => (.ESP_ERR_TIMEOUT, value, { s with bus_pos := s.bus_pos + 1 })
    | .ok w => (.ESP_OK, w % 2 ^ 16, { s with bus_pos := s.bus_pos + 1 })
    | .fail =>
      let s := { s with bus_pos := s.bus_pos + 1, ads_ready := false }
      match bus s.bus_pos with
      | .mutex_timeout => (.ESP_ERR_TIMEOUT, value, { s with bus_pos := s.bus_pos + 1 })
      | .ok w => (.ESP_OK, w % 2 ^ 16, { s with bus_pos := s.bus_pos + 1 })
      | .fail => (.ESP_FAIL, value, { s with bus_pos := s.bus_pos + 1, ads_ready := false })

/-- The function `ads_build_config`; every intermediate is a `uint16_t`. -/
def ads_build_config (gain : AdsGain) (data_rate : AdsDataRate) (channel : Nat) : Nat :=
  let mux := (((0x04 + channel) % 2 ^ 16) <<< 12) % 2 ^ 16
  let pga := ((ads_gain_to_index gain).toNat <<< 9) % 2 ^ 16
  let mode_single := 1 <<< 8
  let data_rate := (ads_data_rate_index data_rate <<< 5) % 2 ^ 16
  let comparator_disabled := 0x0003
  (0x8000 ||| mux ||| pga ||| mode_single ||| data_rate ||| comparator_disabled) % 2 ^ 16

/-- The polling loop of `ads_read_raw`: while `waited_us < max_wait_us`, read the status
register, leave on an error or on bit 15, else wait 1000 us. The first argument bounds
the number of iterations; twenty are enough for `waited_us` to reach `max_wait_us`. -/
def ads_poll (bus : Bus) : Nat → Nat → Sensor → esp_err_t × Sensor
  | 0, _, s => (.ESP_OK, s)
  | fuel + 1, waited_us, s =>
    if waited_us < 20000 then
      let r := ads_read_reg bus s 0x01 0
      if r.1 ≠ .ESP_OK then (r.1, r.2.2)
      else if r.2.1 &&& 0x8000 ≠ 0 then (.ESP_OK, r.2.2)
      else ads_poll bus fuel (waited_us + 1000) r.2.2
    else (.ESP_OK, s)

/-- The conversion `static_cast<int16_t>` of a 16-bit word. -/
def to_int16 (data : Nat) : Int :=
  if data % 2 ^ 16 < 2 ^ 15 then ((data % 2 ^ 16 : Nat) : Int)
  else ((data % 2 ^ 16 : Nat) : Int) - 2 ^ 16

/-- The function `ads_read_raw`. `raw` is the reference argument. -/
def ads_read_raw (bus : Bus) (s : Sensor) (channel : Nat) (raw : Int) :
    esp_err_t × Int × Sensor :=
  let config := ads_build_config s.gain s.data_rate channel
  let w := ads_write_reg bus s 0x01 config
  if w.1 ≠ .ESP_OK then (w.1, raw, w.2)
  else
    let p := ads_poll bus 20 0 w.2
    if p.1 ≠ .ESP_OK then (p.1, raw, p.2)
    else
      let d := ads_read_reg bus p.2 0x00 0
      (d.1, to_int16 d.2.1, d.2.2)

/-- The loop of `ads_read_mv` over `OVERSAMPLE` conversions: `none` is the early
`return 0.0f` after a failed read, else the sum of the raw counts. -/
def ads_read_sum (bus : Bus) (channel : Nat) : Nat → Int → Sensor → Option Int × Sensor
  | 0, sum, s => (some sum, s)
  | n + 1, sum, s =>
    let r := ads_read_raw bus s channel 0
    if r.1 ≠ .ESP_OK then
      (none, { r.2.2 with ads_error_logged := true, ads_ready := false })
    else ads_read_sum bus channel n (sum + r.2.1) { r.2.2 with ads_error_logged := false }

/-- The function `ads_read_mv`. -/
def ads_read_mv (bus : Bus) (s : Sensor) (channel : Nat) : ℚ × Sensor :=
  if !s.ads_ready then (0, s)
  else
    let r := ads_read_sum bus channel OVERSAMPLE 0 s
    match r.1 with
    | none => (0, r.2)
    | some sum =>
      let avg_raw : ℚ := (sum : ℚ) / ((max OVERSAMPLE 1 : Nat) : ℚ)
      (avg_raw * ads_gain_lsb_mv r.2.gain, r.2)

/-! ### Signal conditioner -/

/-- The function-local statics of `read_adc`. -/
structure EmaState where
  ema_init : Bool
  e0 : ℚ
  e1 : ℚ
  e2 : ℚ
deriving DecidableEq

/-- The statics at process start. -/
def EmaState.init : EmaState := ⟨false, 0, 0, 0⟩

/-- Three channel values in millivolts. -/
structure Mv3 where
  x0 : ℚ
  x1 : ℚ
  x2 : ℚ
deriving DecidableEq

/-- The filter step of `read_adc` on the three raw readings. -/
def ema_update (st : EmaState) (x : Mv3) : EmaState :=
  if !st.ema_init then { ema_init := true, e0 := x.x0, e1 := x.x1, e2 := x.x2 }
  else
    { st with e0 := st.e0 + EMA_ALPHA * (x.x0 - st.e0)
              e1 := st.e1 + EMA_ALPHA * (x.x1 - st.e1)
              e2 := st.e2 + EMA_ALPHA * (x.x2 - st.e2) }

/-- The three calls of `ads_read_mv` at the start of `read_adc`. -/
def read_channels (bus : Bus) (s : Sensor) : Mv3 × Sensor :=
  let r0 := ads_read_mv bus s 0
  let r1 := ads_read_mv bus r0.2 1
  let r2 := ads_read_mv bus r1.2 2
  (⟨r0.1, r1.1, r2.1⟩, r2.2)

/-- The function `read_adc`: the values written to `result`, and the new driver and
filter state. -/
def read_adc (bus : Bus) (s : Sensor) (st : EmaState) : Mv3 × Sensor × EmaState :=
  let r := read_channels bus s
  let st := ema_update st r.1
  (⟨st.e0, st.e1, st.e2⟩, r.2, st)

/-- The filter run over a sequence of raw readings, one per invocation. -/
def ema_run (st : EmaState) (xs : List Mv3) : EmaState := xs.foldl ema_update st

/-- The filter state of channel `i`. -/
def EmaState.chan (st : EmaState) (i : Fin 3) : ℚ :=
  match i with
  | 0 => st.e0
  | 1 => st.e1
  | 2 => st.e2

/-- The value of channel `i`. -/
def Mv3.chan (v : Mv3) (i : Fin 3) : ℚ :=
  match i with
  | 0 => v.x0
  | 1 => v.x1
  | 2 => v.x2

/-- The full-scale span in volts of the gain with index `idx`, as the fixed table gives
it: 6.144, 4.096, 2.048, 1.024, 0.512, 0.256. -/
def span_of_index (idx : Nat) : ℚ :=
  [6144 / 1000, 4096 / 1000, 2048 / 1000, 1024 / 1000, 512 / 1000, 256 / 1000].getD idx 0

/-- A healthy bus during one conversion: the write is acknowledged, the first status
poll shows the ready bit, and the conversion register holds `word`. -/
def conversion_bus (word : Nat) : Bus := fun n => if n = 2 then .ok word else .ok 0x8000

/-- A driver state with the sensor found, as after start-up. -/
def demo_sensor : Sensor :=
  { gain := .GAIN_ONE, data_rate := .RATE_860SPS, ads_ready := true,
    ads_error_logged := false, bus_pos := 0 }

/-- A bus on which the status register never shows the ready bit: every transfer
succeeds, the status polls read 0, and the conversion register (the 22nd transfer of a
read) holds `0x1234`. -/
def stale_bus : Bus := fun n => if n = 21 then .ok 0x1234 else .ok 0

/-- Whether the acquisition cycle `io` run in state `s` stores its sample in the write
batch: recording and mounted, the 2 ms mutex acquired, and room in the batch. -/
def cycle_stores (io : CycleIO) (s : State) : Bool :=
  s.is_recording && s.sd_mounted && io.take_push && decide (s.sd_buffer_index < SD_BUFFER_SIZE)

/-- The samples that the cycles `ios`, run from state `s`, store in the write batch. -/
def stored_samples (s : State) : List CycleIO → List DataPoint
  | [] => []
  | io :: rest =>
    (if cycle_stores io s then [io.sample] else []) ++ stored_samples (acquisition_cycle io s) rest

/-- The lines of the session file followed by the lines still pending in the write
batch. -/
def session_lines (s : State) : List Str :=
  (file_lines s.files s.current_file_name).getD []
    ++ (s.sd_buffer.take s.sd_buffer_index).map format_line

/-- A cycle in which the 2 ms acquisition of the storage mutex times out. -/
def missed_push_io : CycleIO := ⟨⟨1, 2, 3, true⟩, 5000, false, true, true⟩

/-- A running recording session: flag set, card mounted, a session name, and the batch
index within the array. -/
structure SessionInv (s : State) : Prop where
  recording : s.is_recording = true
  mnt : s.sd_mounted = true
  name : s.current_file_name ≠ []
  len : s.sd_buffer.length = SD_BUFFER_SIZE
  idx : s.sd_buffer_index ≤ SD_BUFFER_SIZE

/-! ### Start-up, file transfer and reachable states -/

/-- The effect of `host_file` on the globals: when the named file is the one being
recorded, the write batch is flushed first; sending the file changes nothing. -/
def host_file (take fopen_ok : Bool) (s : State) (file_name : Str) : State :=
  if !s.sd_mounted then s
  else if s.is_recording && s.current_file_name = file_name then
    flush_buffer_to_sd take fopen_ok s
  else s

/-- The globals when `app_main` has started the tasks: the sensor probed, the WiFi mode
loaded from the NVS, the card mounted if possible, and sampling enabled by
`data_collection_task`. The card and the NVS keep what they held before the start. -/
def app_main (probe_ok spi_init_ok mount_ok : Bool) (files : List (Str × List Str))
    (nvs : Option WifiSettings) : State :=
  let s : State :=
    { State.init with
      ads_ready := probe_ok
      wifi_mode := (match nvs with
        | some w => w.mode
        | none => "own".toList)
      files := files
      nvs := nvs }
  let s := (init_sd_card spi_init_ok mount_ok s).2
  { s with sampling_enabled := true }

/-- The states reachable from a start-up by iterations of the acquisition loop,
dispatcher commands and file transfers, run one after the other with every acquisition
of the storage mutex succeeding. A restart leads to a start-up state again. -/
inductive Reachable : State → Prop
  | boot (probe_ok spi_init_ok mount_ok : Bool) (files : List (Str × List Str))
      (nvs : Option WifiSettings) : Reachable (app_main probe_ok spi_init_ok mount_ok files nvs)
  | cycle (s : State) (io : CycleIO) : Reachable s → io.take_push = true →
      io.take_flush = true → Reachable (data_collection_step io s)
  | command (s : State) (env : Env) (raw : Str) : Reachable s → env.sd_take = true →
      Reachable (process_request env s raw).state
  | transfer (s : State) (fopen_ok : Bool) (file_name : Str) : Reachable s →
      Reachable (host_file true fopen_ok s file_name)

/-- The invariant of the recording flag and the write batch: a recording has a mounted
card and a session name, and outside a recording the batch is empty. -/
def BatchInv (s : State) : Prop :=
  (s.is_recording = true → s.sd_mounted = true ∧ s.current_file_name ≠ []) ∧
  (s.is_recording = false → s.sd_buffer_index = 0)

/-- Two states with the same recording flag, mount flag, session name and batch index. -/
def SameBatch (t s : State) : Prop :=
  t.is_recording = s.is_recording ∧ t.sd_mounted = s.sd_mounted ∧
    t.current_file_name = s.current_file_name ∧ t.sd_buffer_index = s.sd_buffer_index

/-- A bus whose first transfer fails and whose later transfers succeed. -/
def retry_bus : Bus := fun n => if n = 0 then .fail else .ok 7

/-! ## Theorems -/

/-! ### Ring cache -/

theorem rtInv_init : RtInv [] RtCache.init := by
  refine ⟨?_, by simp [RtCache.init], by simp [RtCache.init], ?_, ?_⟩
  · show (List.replicate RT_BUFFER_SIZE DataPoint.zero).length = 256
    rw [List.length_replicate]; rfl
  · intro j hj; simp at hj
  · intro i _ hi
    show (List.replicate RT_BUFFER_SIZE DataPoint.zero)[i]? = some DataPoint.zero
    rw [List.getElem?_replicate, if_pos (by simpa [RT_BUFFER_SIZE] using hi)]

theorem rtInv_push {xs : List DataPoint} {c : RtCache} (h : RtInv xs c) (x : DataPoint) :
    RtInv (xs ++ [x]) (rt_push_sample c x) := by
  have hlt : xs.length % 256 < 256 := Nat.mod_lt _ (by norm_num)
  refine ⟨?_, ?_, ?_, ?_, ?_⟩
  · simp [rt_push_sample, h.len]
  · simp only [rt_push_sample, h.head, RT_BUFFER_SIZE, List.length_append, List.length_singleton]
    rw [Int.tmod_eq_emod (by omega) (by norm_num)]
    omega
  · simp [rt_push_sample]
  · intro j hj hj2
    simp only [List.length_append, List.length_singleton] at hj hj2
    simp only [rt_push_sample, h.head, Int.toNat_ofNat]
    rw [List.getElem?_set]
    by_cases hjn : j = xs.length
    · subst hjn
      simp [h.len, hlt]
    · have hne : xs.length % 256 ≠ j % 256 := by omega
      rw [if_neg hne, h.recent j (by omega) (by omega)]
      rw [List.getElem?_append_left (by omega)]
  · intro i hi hi2
    simp only [List.length_append, List.length_singleton] at hi
    simp only [rt_push_sample, h.head, Int.toNat_ofNat]
    rw [List.getElem?_set]
    have hne : xs.length % 256 ≠ i := by omega
    rw [if_neg hne]
    exact h.fresh i (by omega) hi2

theorem rtInv_push_all (xs : List DataPoint) : RtInv xs (rt_push_all RtCache.init xs) := by
  induction xs using List.reverseRecOn with
  | nil => exact rtInv_init
  | append_singleton xs x ih =>
    have := rtInv_push ih x
    simpa [rt_push_all, List.foldl_append] using this

theorem rt_get_latest_of_inv {xs : List DataPoint} {c : RtCache} (h : RtInv xs c) :
    rt_get_latest c = xs.getLast? := by
  rcases List.eq_nil_or_concat xs with rfl | ⟨ys, y, rfl⟩
  · simp [rt_get_latest, h.has]
  · rw [List.concat_eq_append] at h ⊢
    have hr := h.recent ys.length (by simp) (by simp)
    simp only [rt_get_latest, h.has, h.head, RT_BUFFER_SIZE]
    simp only [List.length_append, List.length_singleton] at hr ⊢
    rw [Int.tmod_eq_emod (by omega) (by norm_num)]
    have : ((((ys.length + 1) % 256 : Nat) : Int) - 1 + ((256 : Nat) : Int)) % ((256 : Nat) : Int)
        = ((ys.length % 256 : Nat) : Int) := by omega
    rw [this, Int.toNat_ofNat, hr]
    simp

/-- C1: on the initial (empty) ring cache `rt_get_latest` reports none, and after
pushing any non-empty sequence of samples (of any length, also beyond the capacity
256) it returns exactly the last pushed sample. -/
theorem rt_get_latest_last_pushed :
    rt_get_latest RtCache.init = none ∧
    ∀ (xs : List DataPoint) (hne : xs ≠ []),
      rt_get_latest (rt_push_all RtCache.init xs) = some (xs.getLast hne) := by
  refine ⟨by simp [rt_get_latest, RtCache.init], ?_⟩
  intro xs hne
  rw [rt_get_latest_of_inv (rtInv_push_all xs), List.getLast?_eq_getLast _ hne]

theorem rt_get_latest_last_pushed_witness :
    rt_get_latest (rt_push_all RtCache.init [⟨10, 1, 2, 3⟩, ⟨20, 4, 5, 6⟩]) = some ⟨20, 4, 5, 6⟩ :=
  rt_get_latest_last_pushed.2 [⟨10, 1, 2, 3⟩, ⟨20, 4, 5, 6⟩] (by simp)

/-- C2: after pushing any `N` samples onto the initial ring cache the head index is
in `[0, 256)` and the array keeps its 256 slots; each of the last `min N 256` pushed
samples (0-based position `j`, push number `j + 1 > N - 256`) sits in slot `j % 256`;
every written slot `i` holds the most recent push whose position is congruent to `i`,
and that push is one of the last 256 (nothing with push number `≤ N - 256` remains);
the slots never written still hold the zero sample. -/
theorem rt_cache_holds_most_recent (xs : List DataPoint) :
    (0 ≤ (rt_push_all RtCache.init xs).rt_head ∧ (rt_push_all RtCache.init xs).rt_head < 256) ∧
    (rt_push_all RtCache.init xs).rt_buffer.length = 256 ∧
    (∀ j, j < xs.length → xs.length ≤ j + 256 →
      (rt_push_all RtCache.init xs).rt_buffer[j % 256]? = xs[j]?) ∧
    (∀ i, i < 256 → i < xs.length →
      ∃ j, j < xs.length ∧ j % 256 = i ∧ (∀ k, j < k → k < xs.length → k % 256 ≠ i) ∧
        xs.length ≤ j + 256 ∧ (rt_push_all RtCache.init xs).rt_buffer[i]? = xs[j]?) ∧
    (∀ i, i < 256 → xs.length ≤ i →
      (rt_push_all RtCache.init xs).rt_buffer[i]? = some DataPoint.zero) := by
  have h := rtInv_push_all xs
  refine ⟨⟨?_, ?_⟩, h.len, h.recent, ?_, fun i hi hn => h.fresh i hn hi⟩
  · rw [h.head]; omega
  · rw [h.head]; omega
  · intro i hi hn
    refine ⟨xs.length - 1 - (xs.length - 1 - i) % 256, by omega, by omega, ?_, by omega, ?_⟩
    · intro k hk1 hk2; omega
    · have := h.recent (xs.length - 1 - (xs.length - 1 - i) % 256) (by omega) (by omega)
      have hm : (xs.length - 1 - (xs.length - 1 - i) % 256) % 256 = i := by omega
      rw [hm] at this
      exact this

theorem rt_cache_holds_most_recent_witness :
    (rt_push_all RtCache.init [⟨10, 1, 2, 3⟩, ⟨20, 4, 5, 6⟩]).rt_buffer[1 % 256]?
      = [(⟨10, 1, 2, 3⟩ : DataPoint), ⟨20, 4, 5, 6⟩][1]? :=
  (rt_cache_holds_most_recent [⟨10, 1, 2, 3⟩, ⟨20, 4, 5, 6⟩]).2.2.1 1 (by decide) (by decide)

/-! ### Write batch -/

theorem take_set_succ {α : Type} (l : List α) (i : Nat) (x : α) (h : i < l.length) :
    (l.set i x).take (i + 1) = l.take i ++ [x] := by
  induction l generalizing i with
  | nil => simp at h
  | cons a l ih =>
    cases i with
    | zero => simp
    | succ i =>
      simp only [List.length_cons, Nat.add_lt_add_iff_right] at h
      simp [List.set, List.take, ih i h]

theorem file_lines_append_lines (files : List (Str × List Str)) (name : Str) (new : List Str) :
    file_lines (append_lines files name new) name
      = some ((file_lines files name).getD [] ++ new) := by
  induction files with
  | nil => simp [append_lines, file_lines]
  | cons e rest ih =>
    obtain ⟨n, ls⟩ := e
    by_cases h : n = name
    · simp [append_lines, file_lines, h]
    · simp [append_lines, file_lines, h, ih]

theorem file_lines_append_lines_other (files : List (Str × List Str)) (name other : Str)
    (new : List Str) (h : other ≠ name) :
    file_lines (append_lines files name new) other = file_lines files other := by
  induction files with
  | nil => simp [append_lines, file_lines, Ne.symm h]
  | cons e rest ih =>
    obtain ⟨n, ls⟩ := e
    by_cases hn : n = name
    · subst hn
      simp [append_lines, file_lines, Ne.symm h]
    · by_cases ho : n = other
      · subst ho
        simp [append_lines, file_lines, hn]
      · simp [append_lines, file_lines, hn, ho, ih]

theorem run_cycles_append (s : State) (xs ys : List CycleIO) :
    run_cycles s (xs ++ ys) = run_cycles (run_cycles s xs) ys := by
  simp [run_cycles, List.foldl_append]

theorem count_flushes_append (s : State) (xs ys : List CycleIO) :
    count_flushes s (xs ++ ys) = count_flushes s xs + count_flushes (run_cycles s xs) ys := by
  induction xs generalizing s with
  | nil => simp [count_flushes, run_cycles]
  | cons x xs ih =>
    show (if cycle_flushes x s then 1 else 0) + count_flushes (acquisition_cycle x s) (xs ++ ys)
      = ((if cycle_flushes x s then 1 else 0) + count_flushes (acquisition_cycle x s) xs)
        + count_flushes (run_cycles (acquisition_cycle x s) xs) ys
    rw [ih]; omega

theorem acquisition_cycle_filling (io : CycleIO) (s : State)
    (hrec : s.is_recording = true) (hmnt : s.sd_mounted = true)
    (hlen : s.sd_buffer.length = SD_BUFFER_SIZE) (htake : io.take_push = true)
    (hidx : s.sd_buffer_index + 1 < SD_BUFFER_SIZE) :
    (acquisition_cycle io s).is_recording = true ∧
    (acquisition_cycle io s).sd_mounted = true ∧
    (acquisition_cycle io s).current_file_name = s.current_file_name ∧
    (acquisition_cycle io s).files = s.files ∧
    (acquisition_cycle io s).sd_buffer.length = SD_BUFFER_SIZE ∧
    (acquisition_cycle io s).sd_buffer_index = s.sd_buffer_index + 1 ∧
    (acquisition_cycle io s).sd_buffer.take (s.sd_buffer_index + 1)
      = s.sd_buffer.take s.sd_buffer_index ++ [io.sample] ∧
    cycle_flushes io s = false := by
  have h1 : s.sd_buffer_index < SD_BUFFER_SIZE := by omega
  have h2 : ¬ (s.sd_buffer_index + 1 ≥ SD_BUFFER_SIZE) := by omega
  simp [acquisition_cycle, cycle_flushes, batch_append, hrec, hmnt, htake, h1, h2, hlen]
  exact take_set_succ _ _ _ (by omega)

theorem acquisition_cycle_flushing (io : CycleIO) (s : State)
    (hrec : s.is_recording = true) (hmnt : s.sd_mounted = true)
    (hname : s.current_file_name ≠ [])
    (hlen : s.sd_buffer.length = SD_BUFFER_SIZE) (htake : io.take_push = true)
    (hflush : io.take_flush = true) (hopen : io.fopen_ok = true)
    (hidx : s.sd_buffer_index + 1 = SD_BUFFER_SIZE) :
    cycle_flushes io s = true ∧
    (acquisition_cycle io s).sd_buffer_index = 0 ∧
    (acquisition_cycle io s).files
      = append_lines s.files s.current_file_name
          ((s.sd_buffer.take s.sd_buffer_index ++ [io.sample]).map format_line) := by
  have h1 : s.sd_buffer_index < SD_BUFFER_SIZE := by omega
  have h2 : s.sd_buffer_index + 1 ≥ SD_BUFFER_SIZE := by omega
  have h3 : 0 < s.sd_buffer_index + 1 := by omega
  have ht := take_set_succ s.sd_buffer s.sd_buffer_index io.sample (by omega)
  simp [acquisition_cycle, cycle_flushes, batch_append, flush_buffer_to_sd, hrec, hmnt, htake,
    h1, h2, hname, hflush, hopen, ht]

theorem run_cycles_filling (ios : List CycleIO) :
    ∀ s : State, s.is_recording = true → s.sd_mounted = true →
      s.sd_buffer.length = SD_BUFFER_SIZE → (∀ io ∈ ios, io.take_push = true) →
      s.sd_buffer_index + ios.length < SD_BUFFER_SIZE →
      (run_cycles s ios).is_recording = true ∧
      (run_cycles s ios).sd_mounted = true ∧
      (run_cycles s ios).current_file_name = s.current_file_name ∧
      (run_cycles s ios).files = s.files ∧
      (run_cycles s ios).sd_buffer.length = SD_BUFFER_SIZE ∧
      (run_cycles s ios).sd_buffer_index = s.sd_buffer_index + ios.length ∧
      (run_cycles s ios).sd_buffer.take (s.sd_buffer_index + ios.length)
        = s.sd_buffer.take s.sd_buffer_index ++ ios.map CycleIO.sample ∧
      count_flushes s ios = 0 := by
  induction ios with
  | nil => intro s hrec hmnt hlen _ _; simp [run_cycles, count_flushes, hrec, hmnt, hlen]
  | cons io ios ih =>
    intro s hrec hmnt hlen hio hidx
    simp only [List.length_cons] at hidx
    obtain ⟨a1, a2, a3, a4, a5, a6, a7, a8⟩ :=
      acquisition_cycle_filling io s hrec hmnt hlen (hio io (by simp)) (by omega)
    obtain ⟨b1, b2, b3, b4, b5, b6, b7, b8⟩ :=
      ih (acquisition_cycle io s) a1 a2 a5 (fun x hx => hio x (by simp [hx])) (by omega)
    have hrun : run_cycles s (io :: ios) = run_cycles (acquisition_cycle io s) ios := by
      simp [run_cycles]
    rw [hrun]
    refine ⟨b1, b2, b3.trans a3, b4.trans a4, b5, ?_, ?_, ?_⟩
    · rw [b6, a6]; simp only [List.length_cons]; omega
    · have : s.sd_buffer_index + (io :: ios).length
          = (acquisition_cycle io s).sd_buffer_index + ios.length := by
        rw [a6]; simp only [List.length_cons]; omega
      rw [this, b7, a6, a7]
      simp
    · simp [count_flushes, a8, b8]

/-- C3: with a recording session active (recording flag set, non-empty session name),
storage mounted, the 860-slot write batch empty, and every mutex acquisition and the
`fopen` succeeding, 860 acquisition cycles call `flush_buffer_to_sd` exactly once, in the
860th cycle (no call and no file change after any `k < 860` cycles, when the batch index
is `k`); afterwards the batch index is zero and the session file has gained exactly 860
lines, the formatted samples of the 860 cycles in push order. -/
theorem write_batch_flushes_once_at_capacity (s : State) (ios : List CycleIO)
    (hrec : s.is_recording = true) (hmnt : s.sd_mounted = true)
    (hname : s.current_file_name ≠ []) (hlen : s.sd_buffer.length = SD_BUFFER_SIZE)
    (hidx : s.sd_buffer_index = 0) (hn : ios.length = 860)
    (hio : ∀ io ∈ ios, io.take_push = true ∧ io.take_flush = true ∧ io.fopen_ok = true) :
    count_flushes s ios = 1 ∧
    (∀ k, k < 860 → count_flushes s (ios.take k) = 0 ∧
      (run_cycles s (ios.take k)).files = s.files ∧
      (run_cycles s (ios.take k)).sd_buffer_index = k) ∧
    (run_cycles s ios).sd_buffer_index = 0 ∧
    (run_cycles s ios).files
      = append_lines s.files s.current_file_name ((ios.map CycleIO.sample).map format_line) ∧
    file_lines (run_cycles s ios).files s.current_file_name
      = some ((file_lines s.files s.current_file_name).getD []
          ++ (ios.map CycleIO.sample).map format_line) ∧
    ((ios.map CycleIO.sample).map format_line).length = 860 := by
  have hfill : ∀ k, k < 860 → _ := fun k hk =>
    run_cycles_filling (ios.take k) s hrec hmnt hlen
      (fun io h => (hio io (List.mem_of_mem_take h)).1)
      (by rw [hidx, List.length_take, hn]; simp only [SD_BUFFER_SIZE]; omega)
  obtain ⟨x, hx⟩ : ∃ x, ios.drop 859 = [x] := by
    apply List.length_eq_one.mp
    rw [List.length_drop, hn]
  have hsplit : ios = ios.take 859 ++ [x] := by rw [← hx, List.take_append_drop]
  have hxmem : x ∈ ios := by rw [hsplit]; simp
  obtain ⟨a1, a2, a3, a4, a5, a6, a7, a8⟩ := hfill 859 (by norm_num)
  have hl : (ios.take 859).length = 859 := by rw [List.length_take, hn]; rfl
  rw [hidx, hl] at a6 a7
  simp only [Nat.zero_add, List.take_zero, List.nil_append] at a6 a7
  obtain ⟨b1, b2, b3⟩ := acquisition_cycle_flushing x (run_cycles s (ios.take 859)) a1 a2
    (by rw [a3]; exact hname) a5 (hio x hxmem).1 (hio x hxmem).2.1 (hio x hxmem).2.2
    (by rw [a6]; rfl)
  have hrun : run_cycles s ios = acquisition_cycle x (run_cycles s (ios.take 859)) := by
    conv_lhs => rw [hsplit]
    rw [run_cycles_append]; rfl
  have hfiles : (run_cycles s ios).files
      = append_lines s.files s.current_file_name ((ios.map CycleIO.sample).map format_line) := by
    rw [hrun, b3, a6, a7, a4, a3]
    conv_rhs => rw [hsplit]
    simp
  refine ⟨?_, ?_, ?_, hfiles, ?_, by simp [hn]⟩
  · conv_lhs => rw [hsplit]
    rw [count_flushes_append, a8]
    simp [count_flushes, b1]
  · intro k hk
    obtain ⟨_, _, _, c4, _, c6, _, c8⟩ := hfill k hk
    refine ⟨c8, c4, ?_⟩
    rw [c6, hidx, List.length_take, hn]; omega
  · rw [hrun, b2]
  · rw [hfiles, file_lines_append_lines]

theorem write_batch_flushes_once_at_capacity_witness :
    count_flushes { State.init with is_recording := true, sd_mounted := true,
                                    current_file_name := "log1".toList }
      (List.replicate 860 ⟨⟨1, 2, 3, true⟩, 5000, true, true, true⟩) = 1 :=
  (write_batch_flushes_once_at_capacity
    { State.init with is_recording := true, sd_mounted := true,
                      current_file_name := "log1".toList }
    (List.replicate 860 ⟨⟨1, 2, 3, true⟩, 5000, true, true, true⟩)
    rfl rfl (by decide) (List.length_replicate _ _) rfl (List.length_replicate _ _)
    (fun io h => by rw [List.eq_of_mem_replicate h]; exact ⟨rfl, rfl, rfl⟩)).1

/-! ### Dispatcher: recording state machine -/

theorem rfind_lt (s : Str) (c : Char) (i : Nat) (h : rfind s c = some i) : i < s.length := by
  induction s generalizing i with
  | nil => simp [rfind] at h
  | cons x xs ih =>
    simp only [rfind] at h
    cases hr : rfind xs c with
    | some j =>
      rw [hr] at h
      simp only [Option.some.injEq] at h
      have := ih j hr
      simp only [List.length_cons]; omega
    | none =>
      rw [hr] at h
      by_cases hx : x = c
      · simp [hx] at h; simp [← h]
      · simp [hx] at h

theorem recording_name_isSome (clk : Clock) (arg : Str) : ∃ n, recording_name clk arg = some n := by
  unfold recording_name
  simp only
  generalize (if (trim arg).isEmpty || trim arg = ['/'] then default_recording_name clk else trim arg) = name
  cases hr : rfind name '/' with
  | none => exact ⟨_, rfl⟩
  | some i =>
    have := rfind_lt _ _ _ hr
    have h2 : ¬ (i + 1 > name.length) := by omega
    simp [substr_from, h2]

theorem process_start (env : Env) (s : State) (raw arg : Str)
    (hcmd : trim raw = "start=".toList ++ arg) :
    process_request env s raw = start_command env s ("start=".toList ++ arg) := by
  simp [process_request, hcmd, starts_with, List.isPrefixOf]

theorem process_stop (env : Env) (s : State) (raw : Str)
    (hcmd : trim raw = "stop".toList) :
    process_request env s raw = stop_command env s := by
  simp [process_request, hcmd, starts_with, List.isPrefixOf]

theorem process_deinit (env : Env) (s : State) (raw : Str)
    (hcmd : trim raw = "deinitSD".toList) :
    process_request env s raw = deinit_command env s := by
  simp [process_request, hcmd, starts_with, List.isPrefixOf]

theorem process_check (env : Env) (s : State) (raw : Str)
    (hcmd : trim raw = "checkRecording".toList) :
    process_request env s raw = .reply (check_recording_status s) s := by
  simp [process_request, hcmd, starts_with, List.isPrefixOf]

theorem flush_current_file_name (take fopen_ok : Bool) (s : State) :
    (flush_buffer_to_sd take fopen_ok s).current_file_name = s.current_file_name := by
  unfold flush_buffer_to_sd
  split
  · rfl
  · split
    · rfl
    · simp only
      split
      · split <;> rfl
      · rfl

theorem flush_not_recording (take fopen_ok : Bool) (s : State) (h : s.is_recording = false) :
    (flush_buffer_to_sd take fopen_ok s).is_recording = false := by
  unfold flush_buffer_to_sd
  split
  · exact h
  · split
    · exact h
    · simp only
      split
      · split
        · rfl
        · exact h
      · exact h

theorem deinit_sd_card_is_recording (s : State) :
    (deinit_sd_card s).is_recording = s.is_recording := by
  unfold deinit_sd_card
  simp only
  split <;> split <;> rfl

theorem substr_from_append (p arg : Str) : substr_from (p ++ arg) p.length = some arg := by
  simp [substr_from]

/-- C4: the recording state machine of the dispatcher, on the trimmed command line.
`start=<arg>` in Idle with storage mounted replies `Recording started in n` for the
derived name `n` and moves to Recording(`n`) with sampling enabled; `stop` in
Recording(`n`) runs the flush, replies `Recording stopped in n` and ends Idle with the
session name cleared; `deinitSD` in Recording(`n`) with storage mounted runs the flush,
unmounts and ends Idle; `checkRecording` changes nothing and replies `Recording to n`
exactly in Recording(`n`) and `Not recording` exactly in Idle. -/
theorem recording_state_machine :
    (∀ (env : Env) (s : State) (raw arg : Str), trim raw = "start=".toList ++ arg →
      s.is_recording = false → s.sd_mounted = true →
      ∃ n, recording_name env.clock arg = some n ∧
        process_request env s raw = .reply ("Recording started in ".toList ++ n)
          { s with current_file_name := n, is_recording := true, sampling_enabled := true }) ∧
    (∀ (env : Env) (s : State) (raw : Str), trim raw = "stop".toList →
      s.is_recording = true →
      process_request env s raw = .reply ("Recording stopped in ".toList ++ s.current_file_name)
        { flush_buffer_to_sd env.sd_take env.fopen_ok { s with is_recording := false } with
          current_file_name := [] } ∧
      (process_request env s raw).state.is_recording = false ∧
      (process_request env s raw).state.current_file_name = []) ∧
    (∀ (env : Env) (s : State) (raw : Str), trim raw = "deinitSD".toList →
      s.is_recording = true → s.sd_mounted = true →
      process_request env s raw = .reply "SD card deinitialized. Safe to remove.".toList
        (deinit_sd_card
          (flush_buffer_to_sd env.sd_take env.fopen_ok { s with is_recording := false })) ∧
      (process_request env s raw).state.is_recording = false) ∧
    (∀ (env : Env) (s : State) (raw : Str), trim raw = "checkRecording".toList →
      ∃ r, process_request env s raw = .reply r s ∧
        (∀ n, r = "Recording to ".toList ++ n ↔ s.is_recording = true ∧ s.current_file_name = n) ∧
        (r = "Not recording".toList ↔ s.is_recording = false)) := by
  refine ⟨?_, ?_, ?_, ?_⟩
  · intro env s raw arg hcmd hidle hmnt
    obtain ⟨n, hn⟩ := recording_name_isSome env.clock arg
    refine ⟨n, hn, ?_⟩
    rw [process_start env s raw arg hcmd]
    unfold start_command
    rw [show substr_from ("start=".toList ++ arg) 6 = some arg from
      substr_from_append "start=".toList arg]
    simp [hidle, hmnt, hn]
  · intro env s raw hcmd _
    rw [process_stop env s raw hcmd]
    have hname := flush_current_file_name env.sd_take env.fopen_ok { s with is_recording := false }
    have hrec := flush_not_recording env.sd_take env.fopen_ok { s with is_recording := false } rfl
    refine ⟨?_, ?_, ?_⟩
    · simp only [stop_command, hname]
    · simpa [stop_command, Outcome.state] using hrec
    · simp [stop_command, Outcome.state]
  · intro env s raw hcmd hrec hmnt
    rw [process_deinit env s raw hcmd]
    refine ⟨by simp [deinit_command, hrec, hmnt], ?_⟩
    simp only [deinit_command, hrec, hmnt, if_true, Outcome.state]
    rw [deinit_sd_card_is_recording]
    exact flush_not_recording _ _ _ rfl
  · intro env s raw hcmd
    refine ⟨check_recording_status s, process_check env s raw hcmd, ?_, ?_⟩
    · intro n
      cases hrec : s.is_recording <;> simp [check_recording_status, hrec]
    · cases hrec : s.is_recording <;> simp [check_recording_status, hrec]

theorem recording_state_machine_witness :
    (∃ n, recording_name demo_env.clock "log1".toList = some n ∧
      process_request demo_env demo_idle "start=log1".toList
        = .reply ("Recording started in ".toList ++ n)
            { demo_idle with current_file_name := n, is_recording := true,
                             sampling_enabled := true }) ∧
    (process_request demo_env demo_recording "stop\r".toList).state.is_recording = false ∧
    (process_request demo_env demo_recording " deinitSD".toList).state.is_recording = false :=
  ⟨recording_state_machine.1 demo_env demo_idle "start=log1".toList "log1".toList
      (by decide) rfl rfl,
    (recording_state_machine.2.1 demo_env demo_recording "stop\r".toList (by decide) rfl).2.1,
    (recording_state_machine.2.2.1 demo_env demo_recording " deinitSD".toList
      (by decide) rfl rfl).2⟩

/-! ### Dispatcher: rejected commands -/

theorem process_wifi (env : Env) (s : State) (raw arg : Str)
    (hcmd : trim raw = "wifi=".toList ++ arg) :
    process_request env s raw =
      if s.is_recording then .reply "Error: Unable setup wifi during recording!".toList s
      else wifi_command env s ("wifi=".toList ++ arg) := by
  simp [process_request, hcmd, starts_with, List.isPrefixOf]

theorem process_delete (env : Env) (s : State) (raw name : Str)
    (hcmd : trim raw = "delete=".toList ++ name) :
    process_request env s raw =
      .reply (delete_file env.unlink_ok s name).1 (delete_file env.unlink_ok s name).2 := by
  have hsub : substr_from ("delete=".toList ++ name) 7 = some name :=
    substr_from_append "delete=".toList name
  have : process_request env s raw =
      match substr_from ("delete=".toList ++ name) 7 with
      | none => .out_of_range s
      | some file_name =>
        .reply (delete_file env.unlink_ok s file_name).1 (delete_file env.unlink_ok s file_name).2 := by
    simp [process_request, hcmd, starts_with, List.isPrefixOf]
  rw [this, hsub]

theorem process_set_gain (env : Env) (s : State) (raw v : Str)
    (hcmd : trim raw = "adsGain=".toList ++ v) :
    process_request env s raw =
      if !s.ads_ready then .reply "ADS1115 not ready".toList s
      else set_gain_command s ("adsGain=".toList ++ v) := by
  simp [process_request, hcmd, starts_with, List.isPrefixOf]

theorem index_to_ads_gain_none (n : Nat) (h : 5 < n) : index_to_ads_gain (n : Int) = none := by
  unfold index_to_ads_gain
  rw [if_neg (by omega), if_neg (by omega), if_neg (by omega), if_neg (by omega),
    if_neg (by omega), if_neg (by omega)]

theorem set_gain_command_rejected (s : State) (v : Str)
    (hidx : is_gain_index v = false) (halias : parse_ads_gain v = none) :
    set_gain_command s ("adsGain=".toList ++ v)
      = .reply ("Error: Invalid gain value '".toList ++ v
          ++ "'. Use index 0..5 or 2/3,1,2,4,8,16".toList) s := by
  unfold set_gain_command
  rw [show substr_from ("adsGain=".toList ++ v) 8 = some v from
    substr_from_append "adsGain=".toList v]
  simp only
  by_cases hnum : (!v.isEmpty && v.all is_digit) = true
  · have h5 : ¬ decimal_value v ≤ 5 := by
      intro h
      simp [is_gain_index, h] at hidx
      simp at hnum
      exact absurd (hidx hnum.1) (by simpa using hnum.2)
    have : index_to_ads_gain (atoi v) = none := by
      unfold atoi
      apply index_to_ads_gain_none
      omega
    simp [hnum, this]
  · simp [hnum, halias]

/-- C5: rejected commands leave the whole state as it was and reply with a string that
begins with `Error`: `start=...` while recording or while storage is not mounted,
`wifi=...` while recording, `delete=<name>` for the file being recorded, and (sensor
ready) `adsGain=<v>` where `v` is neither a decimal index 0..5 nor an alias that
`parse_ads_gain` accepts. -/
theorem rejected_commands_keep_state :
    (∀ (env : Env) (s : State) (raw arg : Str), trim raw = "start=".toList ++ arg →
      (s.is_recording = true ∨ s.sd_mounted = false) →
      ∃ r, process_request env s raw = .reply r s ∧ starts_with r "Error".toList = true) ∧
    (∀ (env : Env) (s : State) (raw arg : Str), trim raw = "wifi=".toList ++ arg →
      s.is_recording = true →
      ∃ r, process_request env s raw = .reply r s ∧ starts_with r "Error".toList = true) ∧
    (∀ (env : Env) (s : State) (raw name : Str), trim raw = "delete=".toList ++ name →
      s.is_recording = true → s.current_file_name = name →
      ∃ r, process_request env s raw = .reply r s ∧ starts_with r "Error".toList = true) ∧
    (∀ (env : Env) (s : State) (raw v : Str), trim raw = "adsGain=".toList ++ v →
      s.ads_ready = true → is_gain_index v = false → parse_ads_gain v = none →
      ∃ r, process_request env s raw = .reply r s ∧ starts_with r "Error".toList = true) := by
  refine ⟨?_, ?_, ?_, ?_⟩
  · intro env s raw arg hcmd h
    rw [process_start env s raw arg hcmd]
    unfold start_command
    cases hm : s.sd_mounted
    · exact ⟨"Error: SD card not initialized.".toList, by simp, by decide⟩
    · have hr : s.is_recording = true := by
        rcases h with h | h
        · exact h
        · rw [hm] at h; cases h
      exact ⟨"Error: Unable to start new recording due to ".toList ++ s.current_file_name,
        by simp [hr], by simp [starts_with, List.isPrefixOf]⟩
  · intro env s raw arg hcmd hrec
    rw [process_wifi env s raw arg hcmd]
    exact ⟨"Error: Unable setup wifi during recording!".toList, by simp [hrec], by decide⟩
  · intro env s raw name hcmd hrec hname
    rw [process_delete env s raw name hcmd]
    unfold delete_file
    cases hm : s.sd_mounted
    · exact ⟨"Error: SD card not initialized.".toList, by simp, by decide⟩
    · cases he : name.isEmpty
      · exact ⟨"Error: Unable delete current recording file!".toList,
          by simp [he, hrec, hname], by decide⟩
      · exact ⟨"Error: Empty file name".toList, by simp [he], by decide⟩
  · intro env s raw v hcmd hready hidx halias
    rw [process_set_gain env s raw v hcmd, set_gain_command_rejected s v hidx halias]
    exact ⟨"Error: Invalid gain value '".toList ++ v
      ++ "'. Use index 0..5 or 2/3,1,2,4,8,16".toList, by simp [hready],
      by simp [starts_with, List.isPrefixOf]⟩

theorem rejected_commands_keep_state_witness :
    (∃ r, process_request demo_env demo_recording "start=log2".toList = .reply r demo_recording ∧
      starts_with r "Error".toList = true) ∧
    (∃ r, process_request demo_env demo_recording "wifi=own;ssid=a;pwd=b".toList
        = .reply r demo_recording ∧ starts_with r "Error".toList = true) ∧
    (∃ r, process_request demo_env demo_recording "delete=log1".toList = .reply r demo_recording ∧
      starts_with r "Error".toList = true) ∧
    (∃ r, process_request demo_env demo_idle "adsGain=9\r".toList = .reply r demo_idle ∧
      starts_with r "Error".toList = true) :=
  ⟨rejected_commands_keep_state.1 demo_env demo_recording "start=log2".toList "log2".toList
      (by decide) (Or.inl rfl),
    rejected_commands_keep_state.2.1 demo_env demo_recording "wifi=own;ssid=a;pwd=b".toList
      "own;ssid=a;pwd=b".toList (by decide) rfl,
    rejected_commands_keep_state.2.2.1 demo_env demo_recording "delete=log1".toList
      "log1".toList (by decide) rfl rfl,
    rejected_commands_keep_state.2.2.2 demo_env demo_idle "adsGain=9\r".toList "9".toList
      (by decide) rfl (by decide) (by decide)⟩

/-! ### Dispatcher: gain aliases -/

/-- C6: with the sensor ready, `adsGain=8` does not select `GAIN_EIGHT`: the value is
all digits, so it is read as the index 8 and rejected with the usage message (which
itself lists 8 as accepted), the state unchanged; the alias table of `parse_ads_gain`,
where `8` stands for `GAIN_EIGHT`, is never consulted. -/
theorem ads_gain_alias_eight_rejected (env : Env) (s : State) (h : s.ads_ready = true) :
    process_request env s "adsGain=8".toList
      = .reply "Error: Invalid gain value '8'. Use index 0..5 or 2/3,1,2,4,8,16".toList s ∧
    parse_ads_gain "8".toList = some AdsGain.GAIN_EIGHT := by
  refine ⟨?_, by decide⟩
  rw [process_set_gain env s "adsGain=8".toList "8".toList (by decide)]
  have hidx : index_to_ads_gain (atoi "8".toList) = none := by decide
  have hnum : (!("8".toList).isEmpty && ("8".toList).all is_digit) = true := by decide
  rw [if_neg (by simp [h])]
  unfold set_gain_command
  rw [show substr_from ("adsGain=".toList ++ "8".toList) 8 = some "8".toList from
    substr_from_append "adsGain=".toList "8".toList]
  simp only [hnum, if_true, hidx]
  rfl

theorem ads_gain_alias_eight_rejected_witness :
    process_request demo_env demo_idle "adsGain=8".toList
      = .reply "Error: Invalid gain value '8'. Use index 0..5 or 2/3,1,2,4,8,16".toList
          demo_idle :=
  (ads_gain_alias_eight_rejected demo_env demo_idle rfl).1

/-! ### File names -/

theorem allowed_char_iff (c : Char) : allowed_char c = true ↔ in_name_charset c := by
  simp only [allowed_char, in_name_charset, Bool.or_eq_true, Bool.and_eq_true, decide_eq_true_eq,
    beq_iff_eq]
  tauto

theorem digitChar_is_digit (k : Nat) (h : k < 10) : is_digit (Nat.digitChar k) = true := by
  interval_cases k <;> decide

theorem toDigitsCore_is_digit (fuel : Nat) : ∀ (n : Nat) (ds : List Char),
    (∀ c ∈ ds, is_digit c = true) → ∀ c ∈ Nat.toDigitsCore 10 fuel n ds, is_digit c = true := by
  induction fuel with
  | zero => intro n ds h c hc; simpa [Nat.toDigitsCore] using h c (by simpa [Nat.toDigitsCore] using hc)
  | succ fuel ih =>
    intro n ds h c hc
    have hd : ∀ c ∈ (Nat.digitChar (n % 10)) :: ds, is_digit c = true := by
      intro c hc
      rcases List.mem_cons.mp hc with rfl | hc
      · exact digitChar_is_digit _ (Nat.mod_lt _ (by norm_num))
      · exact h c hc
    simp only [Nat.toDigitsCore] at hc
    split at hc
    · exact hd c hc
    · exact ih _ _ hd c hc

theorem fmt_dec_is_digit (n : Nat) : ∀ c ∈ fmt_dec n, is_digit c = true :=
  toDigitsCore_is_digit _ n [] (by simp)

theorem is_digit_allowed (c : Char) (h : is_digit c = true) : allowed_char c = true := by
  simp only [is_digit, Bool.and_eq_true, decide_eq_true_eq] at h
  simp [allowed_char, h]

theorem fmt_dec_allowed (n : Nat) : ∀ c ∈ fmt_dec n, allowed_char c = true :=
  fun c hc => is_digit_allowed c (fmt_dec_is_digit n c hc)

theorem fmt_dec_length (n e : Nat) (he : 0 < e) (h : n < 10 ^ e) : (fmt_dec n).length ≤ e :=
  Nat.repr_length n e he h

theorem fmt_pad2_allowed (n : Nat) : ∀ c ∈ fmt_pad2 n, allowed_char c = true := by
  intro c hc
  unfold fmt_pad2 at hc
  split at hc
  · rcases List.mem_cons.mp hc with rfl | hc
    · decide
    · exact fmt_dec_allowed n c hc
  · exact fmt_dec_allowed n c hc

theorem fmt_pad2_length (n : Nat) (h : n < 100) : (fmt_pad2 n).length ≤ 2 := by
  unfold fmt_pad2
  split
  · have := fmt_dec_length n 1 (by norm_num) (by omega)
    simp only [List.length_cons]; omega
  · exact fmt_dec_length n 2 (by norm_num) (by omega)

theorem default_recording_name_allowed (clk : Clock) :
    ∀ c ∈ default_recording_name clk, allowed_char c = true := by
  intro c hc
  unfold default_recording_name at hc
  split at hc
  · simp only [List.mem_append] at hc
    rcases hc with ((((((((hc | hc) | hc) | hc) | hc) | hc) | hc) | hc) | hc)
    · revert c; decide
    · exact fmt_dec_allowed _ c hc
    · exact fmt_pad2_allowed _ c hc
    · exact fmt_pad2_allowed _ c hc
    · revert c; decide
    · exact fmt_pad2_allowed _ c hc
    · exact fmt_pad2_allowed _ c hc
    · exact fmt_pad2_allowed _ c hc
    · revert c; decide
  · simp only [List.mem_append] at hc
    rcases hc with ((hc | hc) | hc)
    · revert c; decide
    · exact fmt_dec_allowed _ c hc
    · revert c; decide

theorem default_recording_name_length (clk : Clock) :
    1 ≤ (default_recording_name clk).length ∧ (default_recording_name clk).length ≤ 32 := by
  unfold default_recording_name
  split
  · rename_i tm _
    have hy := fmt_dec_length (tm.tm_year.val + 1900) 10 (by norm_num)
      (by have := tm.tm_year.isLt; omega)
    have h1 := fmt_pad2_length (tm.tm_mon.val + 1) (by have := tm.tm_mon.isLt; omega)
    have h2 := fmt_pad2_length tm.tm_mday.val (by have := tm.tm_mday.isLt; omega)
    have h3 := fmt_pad2_length tm.tm_hour.val (by have := tm.tm_hour.isLt; omega)
    have h4 := fmt_pad2_length tm.tm_min.val (by have := tm.tm_min.isLt; omega)
    have h5 := fmt_pad2_length tm.tm_sec.val (by have := tm.tm_sec.isLt; omega)
    simp only [List.length_append, String.toList, List.length_cons, List.length_nil,
      List.length_singleton]
    omega
  · have hm := fmt_dec_length ((clk.timer_us % 2 ^ 64).toNat / 1000) 17 (by norm_num) (by
      have h0 : (0 : Int) ≤ clk.timer_us % 2 ^ 64 := Int.emod_nonneg _ (by norm_num)
      have h1 : clk.timer_us % 2 ^ 64 < 2 ^ 64 := Int.emod_lt_of_pos _ (by norm_num)
      omega)
    simp only [List.length_append, String.toList, List.length_cons, List.length_nil]
    omega


theorem sanitize_filename_props (clk : Clock) (s : Str) :
    (∀ c ∈ sanitize_filename clk s, in_name_charset c) ∧
    1 ≤ (sanitize_filename clk s).length ∧ (sanitize_filename clk s).length ≤ 32 ∧
    ((∃ c ∈ s, in_name_charset c) →
      sanitize_filename clk s = (s.filter (fun c => decide (in_name_charset c))).take 32) ∧
    ((∀ c ∈ s, ¬ in_name_charset c) → sanitize_filename clk s = default_recording_name clk) ∧
    ((∀ c ∈ s, in_name_charset c) → s.length = 50 → sanitize_filename clk s = s.take 32) ∧
    ((∀ c ∈ s, in_name_charset c) → 1 ≤ s.length → s.length ≤ 32 →
      sanitize_filename clk s = s) := by
  have hfilter : s.filter (fun c => decide (in_name_charset c)) = s.filter allowed_char := by
    congr 1
    funext c
    rw [Bool.eq_iff_iff]
    simp [allowed_char_iff]
  have hd1 := default_recording_name_allowed clk
  have hd2 := default_recording_name_length clk
  have hsan : sanitize_filename clk s
      = if (s.filter allowed_char).isEmpty then default_recording_name clk
        else (s.filter allowed_char).take 32 := by
    unfold sanitize_filename
    simp only [MAX_FILENAME_LEN]
    by_cases he : (s.filter allowed_char).isEmpty = true
    · simp only [he, if_true]
      rw [if_neg (by omega)]
    · rw [Bool.not_eq_true] at he
      simp only [he, Bool.false_eq_true, if_false]
      split
      · rfl
      · rw [List.take_of_length_le (by omega)]
  have hne : (∃ c ∈ s, in_name_charset c) → (s.filter allowed_char).isEmpty = false := by
    rintro ⟨c, hc, hin⟩
    have : c ∈ s.filter allowed_char := List.mem_filter.mpr ⟨hc, (allowed_char_iff c).mpr hin⟩
    cases hf : s.filter allowed_char with
    | nil => rw [hf] at this; cases this
    | cons a l => rfl
  have hall : (∀ c ∈ s, in_name_charset c) → s.filter allowed_char = s := by
    intro h
    exact List.filter_eq_self.mpr (fun c hc => (allowed_char_iff c).mpr (h c hc))
  refine ⟨?_, ?_, ?_, ?_, ?_, ?_, ?_⟩
  · intro c hc
    rw [hsan] at hc
    apply (allowed_char_iff c).mp
    split at hc
    · exact hd1 c hc
    · exact (List.mem_filter.mp (List.mem_of_mem_take hc)).2
  · rw [hsan]
    split
    · exact hd2.1
    · rename_i he
      cases hf : s.filter allowed_char with
      | nil => rw [hf] at he; simp at he
      | cons a l => simp
  · rw [hsan]
    split
    · exact hd2.2
    · simp [List.length_take]
  · intro h
    rw [hsan, hne h, hfilter]
    simp
  · intro h
    have : s.filter allowed_char = [] := by
      apply List.filter_eq_nil_iff.mpr
      intro c hc
      exact fun hcon => h c hc ((allowed_char_iff c).mp hcon)
    rw [hsan, this]
    simp
  · intro h hl
    have hex : ∃ c ∈ s, in_name_charset c := by
      cases s with
      | nil => simp at hl
      | cons a l => exact ⟨a, by simp, h a (by simp)⟩
    rw [hsan, hne hex, hall h]
    simp
  · intro h hl1 hl2
    have hex : ∃ c ∈ s, in_name_charset c := by
      cases s with
      | nil => simp at hl1
      | cons a l => exact ⟨a, by simp, h a (by simp)⟩
    rw [hsan, hne hex, hall h]
    simp [List.take_of_length_le hl2]

/-- C7: for every input `s` (and every clock reading), `sanitize_filename s` has only
characters of `[A-Za-z0-9_.-]` and a length between 1 and 32; when `s` has an allowed
character the result is `s` with the disallowed characters removed, cut to its first 32
characters (a 50-character valid name gives its first 32 characters, a valid name of at
most 32 characters comes back unchanged); when `s` has none it is the generated default
name. -/
theorem sanitize_filename_charset_length (clk : Clock) (s : Str) :
    (∀ c ∈ sanitize_filename clk s, in_name_charset c) ∧
    1 ≤ (sanitize_filename clk s).length ∧ (sanitize_filename clk s).length ≤ 32 ∧
    ((∃ c ∈ s, in_name_charset c) →
      sanitize_filename clk s = (s.filter (fun c => decide (in_name_charset c))).take 32) ∧
    ((∀ c ∈ s, ¬ in_name_charset c) → sanitize_filename clk s = default_recording_name clk) ∧
    ((∀ c ∈ s, in_name_charset c) → s.length = 50 → sanitize_filename clk s = s.take 32) ∧
    ((∀ c ∈ s, in_name_charset c) → 1 ≤ s.length → s.length ≤ 32 →
      sanitize_filename clk s = s) :=
  sanitize_filename_props clk s

theorem sanitize_filename_charset_length_witness :
    sanitize_filename demo_clock "../../etc/passwd".toList
      = ("../../etc/passwd".toList.filter (fun c => decide (in_name_charset c))).take 32 :=
  (sanitize_filename_charset_length demo_clock "../../etc/passwd".toList).2.2.2.1
    ⟨'e', by decide, by decide⟩

theorem rfind_eq_none_iff (s : Str) (c : Char) : rfind s c = none ↔ c ∉ s := by
  induction s with
  | nil => simp [rfind]
  | cons x xs ih =>
    simp only [rfind, List.mem_cons, not_or]
    cases hr : rfind xs c with
    | some i =>
      have : ¬ (c ∉ xs) := fun h => by rw [ih.mpr h] at hr; cases hr
      simp [this]
    | none =>
      have hx := ih.mp hr
      by_cases hxc : x = c
      · simp [hxc]
      · simp [hxc, hx, Ne.symm hxc]

theorem takeWhile_append_of_exists {p : Char → Bool} {l₁ l₂ : List Char}
    (h : ∃ a ∈ l₁, p a = false) : (l₁ ++ l₂).takeWhile p = l₁.takeWhile p := by
  induction l₁ with
  | nil => simp at h
  | cons x xs ih =>
    obtain ⟨a, ha, hpa⟩ := h
    cases hpx : p x with
    | false => simp [List.takeWhile, hpx]
    | true =>
      have hax : a ∈ xs := by
        rcases List.mem_cons.mp ha with rfl | h
        · rw [hpx] at hpa; cases hpa
        · exact h
      simp [List.takeWhile, hpx, ih ⟨a, hax, hpa⟩]

theorem base_name_eq (s : Str) :
    (match rfind s '/' with
      | some slash => substr_from s (slash + 1)
      | none => some s) = some (after_last_slash s) := by
  induction s with
  | nil => simp [rfind, after_last_slash, List.rtakeWhile]
  | cons x xs ih =>
    simp only [rfind]
    cases hr : rfind xs '/' with
    | some i =>
      rw [hr] at ih
      have hi := rfind_lt xs '/' i hr
      have hmem : '/' ∈ xs := by
        by_contra h
        rw [(rfind_eq_none_iff xs '/').mpr h] at hr; cases hr
      simp only [substr_from] at ih ⊢
      rw [if_neg (by omega)] at ih
      rw [if_neg (by simp only [List.length_cons]; omega)]
      simp only [List.drop_succ_cons]
      rw [ih]
      congr 1
      simp only [after_last_slash, List.rtakeWhile, List.reverse_cons]
      congr 1
      exact (takeWhile_append_of_exists ⟨'/', by simpa using hmem, by simp⟩).symm
    | none =>
      have hnot := (rfind_eq_none_iff xs '/').mp hr
      have hall : ∀ a ∈ xs.reverse, (fun c => c != '/') a = true := by
        intro a ha
        have : a ∈ xs := by simpa using ha
        simp only [bne_iff_ne, ne_eq]
        rintro rfl
        exact hnot this
      simp only [after_last_slash, List.rtakeWhile, List.reverse_cons]
      rw [List.takeWhile_append_of_pos hall]
      by_cases hx : x = '/'
      · subst hx
        simp [substr_from, List.takeWhile]
      · have hb : (x != '/') = true := by simpa using hx
        simp [hx, List.takeWhile, hb]

theorem slash_not_allowed : allowed_char '/' = false := by decide

theorem sanitize_default (clk : Clock) :
    sanitize_filename clk (default_recording_name clk) = default_recording_name clk := by
  have h := (sanitize_filename_props clk (default_recording_name clk)).2.2.2.2.2.2
  exact h (fun c hc => (allowed_char_iff c).mp (default_recording_name_allowed clk c hc))
    (default_recording_name_length clk).1 (default_recording_name_length clk).2

theorem recording_name_eq (clk : Clock) (arg : Str) :
    recording_name clk arg = some (sanitize_filename clk (after_last_slash (trim arg))) := by
  unfold recording_name
  simp only
  by_cases h : ((trim arg).isEmpty || trim arg = ['/']) = true
  · rw [if_pos h, base_name_eq]
    have hd : after_last_slash (default_recording_name clk) = default_recording_name clk := by
      apply List.rtakeWhile_eq_self_iff.mpr
      intro c hc
      simp only [bne_iff_ne, ne_eq]
      rintro rfl
      have := default_recording_name_allowed clk _ hc
      rw [slash_not_allowed] at this; cases this
    have he : sanitize_filename clk (after_last_slash (trim arg)) = default_recording_name clk := by
      have h0 : after_last_slash (trim arg) = [] := by
        simp only [Bool.or_eq_true, List.isEmpty_iff, decide_eq_true_eq] at h
        rcases h with h | h <;> rw [h] <;> decide
      rw [h0]
      exact (sanitize_filename_props clk []).2.2.2.2.1 (by simp)
    simp only [Option.map_some', hd, he, sanitize_default]
  · rw [if_neg h, base_name_eq]
    rfl

theorem sanitize_no_slash (clk : Clock) (s : Str) : '/' ∉ sanitize_filename clk s := by
  intro h
  have := (sanitize_filename_props clk s).1 _ h
  revert this
  decide

/-- C8: an accepted `start=<arg>` (Idle, storage mounted) records to
`sanitize_filename` of the part of `trim arg` after its last `/`; that name holds no
`/`; and when `trim arg` is empty, is `/` or ends in `/`, it is the generated default
name. -/
theorem start_session_name (env : Env) (s : State) (raw arg : Str)
    (hcmd : trim raw = "start=".toList ++ arg)
    (hidle : s.is_recording = false) (hmnt : s.sd_mounted = true) :
    process_request env s raw
      = .reply ("Recording started in ".toList
            ++ sanitize_filename env.clock (after_last_slash (trim arg)))
          { s with current_file_name := sanitize_filename env.clock (after_last_slash (trim arg)),
                   is_recording := true, sampling_enabled := true } ∧
    '/' ∉ sanitize_filename env.clock (after_last_slash (trim arg)) ∧
    ((trim arg = [] ∨ trim arg = ['/'] ∨ (trim arg).getLast? = some '/') →
      sanitize_filename env.clock (after_last_slash (trim arg))
        = default_recording_name env.clock) := by
  refine ⟨?_, sanitize_no_slash _ _, ?_⟩
  · rw [process_start env s raw arg hcmd]
    unfold start_command
    rw [show substr_from ("start=".toList ++ arg) 6 = some arg from
      substr_from_append "start=".toList arg]
    simp [hidle, hmnt, recording_name_eq]
  · intro h
    have h0 : after_last_slash (trim arg) = [] := by
      rcases h with h | h | h
      · rw [h]; decide
      · rw [h]; decide
      · apply List.rtakeWhile_eq_nil_iff.mpr
        intro hl
        rw [List.getLast?_eq_getLast _ hl] at h
        simp only [Option.some.injEq] at h
        simp [h]
    rw [h0]
    exact (sanitize_filename_props env.clock []).2.2.2.2.1 (by simp)

theorem start_session_name_witness :
    process_request demo_env demo_idle " start=../../etc/passwd\r".toList
      = .reply "Recording started in passwd".toList
          { demo_idle with current_file_name := "passwd".toList, is_recording := true,
                           sampling_enabled := true } :=
  (start_session_name demo_env demo_idle " start=../../etc/passwd\r".toList
    "../../etc/passwd".toList (by decide) rfl rfl).1

/-! ### Dispatcher: `wifi=` -/

theorem find_append_cons (a b : Str) (c : Char) (h : c ∉ a) :
    find (a ++ c :: b) c = some a.length := by
  induction a with
  | nil => simp [find]
  | cons x xs ih =>
    have hx : x ≠ c := fun e => h (by simp [e])
    have hxs : c ∉ xs := fun e => h (by simp [e])
    simp [find, hx, ih hxs]

theorem rfind_append_cons (a b : Str) (c : Char) (h : c ∉ b) :
    rfind (a ++ c :: b) c = some a.length := by
  induction a with
  | nil => simp [rfind, (rfind_eq_none_iff b c).mpr h]
  | cons x xs ih => simp [rfind, ih]

theorem find_first_not_of_cons (x : Char) (xs set : Str) (h : x ∉ set) :
    find_first_not_of (x :: xs) set = some 0 := by
  simp [find_first_not_of, h]

theorem find_last_not_of_concat (xs : Str) (x : Char) (set : Str) (h : x ∉ set) :
    find_last_not_of (xs ++ [x]) set = some xs.length := by
  induction xs with
  | nil => simp [find_last_not_of, h]
  | cons y ys ih => simp [find_last_not_of, ih]

theorem trim_eq_self (x : Char) (mid : Str) (y : Char)
    (hx : x ∉ WHITESPACE) (hy : y ∉ WHITESPACE) :
    trim (x :: (mid ++ [y])) = x :: (mid ++ [y]) := by
  have h1 := find_first_not_of_cons x (mid ++ [y]) WHITESPACE hx
  have h2 := find_last_not_of_concat (x :: mid) y WHITESPACE hy
  simp only [List.cons_append] at h2
  simp only [trim, h1, h2]
  simp

theorem wifi_line_trim (mode ssid pwd : Str)
    (hpwd : ∀ c, pwd.getLast? = some c → c ∉ WHITESPACE) :
    trim ("wifi=".toList ++ mode ++ ";ssid=".toList ++ ssid ++ ";pwd=".toList ++ pwd)
      = "wifi=".toList ++ mode ++ ";ssid=".toList ++ ssid ++ ";pwd=".toList ++ pwd := by
  rcases List.eq_nil_or_concat pwd with rfl | ⟨p, y, rfl⟩
  · have := trim_eq_self 'w' ("ifi=".toList ++ mode ++ ";ssid=".toList ++ ssid ++ ";pwd".toList)
      '=' (by decide) (by decide)
    simpa using this
  · have hy : y ∉ WHITESPACE := hpwd y (by simp)
    have := trim_eq_self 'w'
      ("ifi=".toList ++ mode ++ ";ssid=".toList ++ ssid ++ ";pwd=".toList ++ p) y (by decide) hy
    simpa using this

theorem size_sub_eq (a b : Nat) (hb : b ≤ a) (ha : a < 2 ^ 32) : size_sub a b = a - b := by
  unfold size_sub
  have : b % 2 ^ 32 = b := Nat.mod_eq_of_lt (by omega)
  rw [this]
  have h2 : a + 2 ^ 32 - b = (a - b) + 2 ^ 32 := by omega
  rw [h2, Nat.add_mod_right]
  exact Nat.mod_eq_of_lt (by omega)

theorem wifi_command_parses (env : Env) (s : State) (mode ssid pwd : Str)
    (hm : ';' ∉ mode) (hp : ';' ∉ pwd)
    (hlen : ("wifi=".toList ++ mode ++ ";ssid=".toList ++ ssid ++ ";pwd=".toList ++ pwd).length
      < 2 ^ 32) :
    wifi_command env s
        ("wifi=".toList ++ mode ++ ";ssid=".toList ++ ssid ++ ";pwd=".toList ++ pwd)
      = configure_wifi env.nvs_open_ok s mode ssid pwd := by
  have hl5 : "wifi=".toList.length = 5 := rfl
  have hl6 : ";ssid=".toList.length = 6 := rfl
  have hl5' : ";pwd=".toList.length = 5 := rfl
  have hfind : find ("wifi=".toList ++ mode ++ ";ssid=".toList ++ ssid ++ ";pwd=".toList ++ pwd) ';'
      = some (5 + mode.length) := by
    have e : "wifi=".toList ++ mode ++ ";ssid=".toList ++ ssid ++ ";pwd=".toList ++ pwd
        = ("wifi=".toList ++ mode) ++ ';' :: ("ssid=".toList ++ ssid ++ ";pwd=".toList ++ pwd) := by
      simp
    rw [e, find_append_cons _ _ _ (by simp [hm])]
    simp only [List.length_append, hl5]
  have hrfind : rfind ("wifi=".toList ++ mode ++ ";ssid=".toList ++ ssid ++ ";pwd=".toList ++ pwd) ';'
      = some (5 + mode.length + 6 + ssid.length) := by
    have e : "wifi=".toList ++ mode ++ ";ssid=".toList ++ ssid ++ ";pwd=".toList ++ pwd
        = ("wifi=".toList ++ mode ++ ";ssid=".toList ++ ssid) ++ ';' :: ("pwd=".toList ++ pwd) := by
      simp
    rw [e, rfind_append_cons _ _ _ (by simp [hp])]
    simp only [List.length_append, hl5, hl6]
  simp only [List.length_append] at hlen
  rw [hl5, hl6, hl5'] at hlen
  have h1 : substr ("wifi=".toList ++ mode ++ ";ssid=".toList ++ ssid ++ ";pwd=".toList ++ pwd) 5
      (size_sub (5 + mode.length) 5) = some mode := by
    rw [size_sub_eq _ _ (by omega) (by omega)]
    simp [substr]
  have h2 : substr ("wifi=".toList ++ mode ++ ";ssid=".toList ++ ssid ++ ";pwd=".toList ++ pwd)
      (5 + mode.length + 6) (size_sub (5 + mode.length + 6 + ssid.length) (5 + mode.length + 6))
      = some ssid := by
    rw [size_sub_eq _ _ (by omega) (by omega)]
    have hd : ("wifi=".toList ++ mode ++ ";ssid=".toList ++ ssid ++ ";pwd=".toList ++ pwd).drop
        (5 + mode.length + 6) = ssid ++ (";pwd=".toList ++ pwd) := by
      have hl : ("wifi=".toList ++ mode ++ ";ssid=".toList).length = 5 + mode.length + 6 := by
        simp only [List.length_append, hl5, hl6]
      have e : "wifi=".toList ++ mode ++ ";ssid=".toList ++ ssid ++ ";pwd=".toList ++ pwd
          = ("wifi=".toList ++ mode ++ ";ssid=".toList) ++ (ssid ++ (";pwd=".toList ++ pwd)) := by
        simp
      rw [e, ← hl, List.drop_left]
    unfold substr
    rw [if_neg (by simp only [List.length_append, hl5, hl6, hl5']; omega), hd]
    simp
  have h3 : substr_from
      ("wifi=".toList ++ mode ++ ";ssid=".toList ++ ssid ++ ";pwd=".toList ++ pwd)
      (5 + mode.length + 6 + ssid.length + 5) = some pwd := by
    have := substr_from_append ("wifi=".toList ++ mode ++ ";ssid=".toList ++ ssid ++ ";pwd=".toList) pwd
    simp only [List.length_append, hl5, hl6, hl5'] at this
    exact this
  unfold wifi_command
  rw [hfind, hrfind]
  simp only
  rw [if_neg (by omega), h1]
  simp only
  rw [h2]
  simp only
  rw [h3]

/-- C9: for all strings `mode`, `ssid`, `pwd` with no `;` in `mode` and `pwd` and no
trailing whitespace in `pwd` (nothing is needed of `ssid` or of the start of `mode`; the
line fits a `size_t`), dispatching `wifi=<mode>;ssid=<ssid>;pwd=<pwd>` while not
recording ends in `configure_wifi` called with exactly the triple `(mode, ssid, pwd)`:
the settings are saved and the restart is reached. -/
theorem wifi_command_extracts_triple (env : Env) (s : State) (mode ssid pwd : Str)
    (hm : ';' ∉ mode) (hp : ';' ∉ pwd)
    (hpwd : ∀ c, pwd.getLast? = some c → c ∉ WHITESPACE)
    (hlen : ("wifi=".toList ++ mode ++ ";ssid=".toList ++ ssid ++ ";pwd=".toList ++ pwd).length
      < 2 ^ 32)
    (hrec : s.is_recording = false) :
    process_request env s
        ("wifi=".toList ++ mode ++ ";ssid=".toList ++ ssid ++ ";pwd=".toList ++ pwd)
      = .restart ⟨mode, ssid, pwd⟩ (save_wifi_settings env.nvs_open_ok s ⟨mode, ssid, pwd⟩) := by
  have ht := wifi_line_trim mode ssid pwd hpwd
  have hcmd : trim ("wifi=".toList ++ mode ++ ";ssid=".toList ++ ssid ++ ";pwd=".toList ++ pwd)
      = "wifi=".toList ++ (mode ++ ";ssid=".toList ++ ssid ++ ";pwd=".toList ++ pwd) := by
    rw [ht]; simp
  rw [process_wifi env s _ _ hcmd, if_neg (by simp [hrec])]
  have e : "wifi=".toList ++ (mode ++ ";ssid=".toList ++ ssid ++ ";pwd=".toList ++ pwd)
      = "wifi=".toList ++ mode ++ ";ssid=".toList ++ ssid ++ ";pwd=".toList ++ pwd := by simp
  rw [e, wifi_command_parses env s mode ssid pwd hm hp hlen]
  rfl

theorem wifi_command_extracts_triple_witness :
    process_request demo_env demo_idle "wifi=other;ssid=Home;pwd=secret12".toList
      = .restart ⟨"other".toList, "Home".toList, "secret12".toList⟩
          { demo_idle with
            nvs := some ⟨"other".toList, "Home".toList, "secret12".toList⟩ } :=
  wifi_command_extracts_triple demo_env demo_idle "other".toList "Home".toList "secret12".toList
    (by decide) (by decide) (by decide) (by decide) rfl

theorem rfind_eq_find_of_count_le_one (s : Str) (c : Char) (h : s.count c ≤ 1) :
    rfind s c = find s c := by
  induction s with
  | nil => rfl
  | cons x xs ih =>
    by_cases hx : x = c
    · subst hx
      have h0 : xs.count x = 0 := by simp at h; exact h
      have hnot : x ∉ xs := List.count_eq_zero.mp h0
      simp [rfind, find, (rfind_eq_none_iff xs x).mpr hnot]
    · have hc : xs.count c ≤ 1 := by
        rw [List.count_cons_of_ne (Ne.symm hx)] at h; exact h
      simp only [rfind, find, hx, if_false, ih hc]
      cases find xs c <;> rfl

theorem trim_sublist (s : Str) : (trim s).Sublist s := by
  unfold trim
  split
  · exact List.nil_sublist _
  · split
    · exact (List.take_sublist _ _).trans (List.drop_sublist _ _)
    · exact List.drop_sublist _ _

/-- C10: a line whose trimmed form starts with `wifi=`, received while not recording and
holding fewer than two `;`, gets the reply `Error: Invalid wifi command` with the state
unchanged: no `substr` is evaluated (no `out_of_range`), nothing is saved and the
restart is not reached. -/
theorem wifi_command_missing_separator (env : Env) (s : State) (raw arg : Str)
    (hcmd : trim raw = "wifi=".toList ++ arg) (hrec : s.is_recording = false)
    (hcount : raw.count ';' < 2) :
    process_request env s raw = .reply "Error: Invalid wifi command".toList s := by
  have hc : ("wifi=".toList ++ arg).count ';' ≤ 1 := by
    have := (trim_sublist raw).count_le ';'
    rw [hcmd] at this
    omega
  rw [process_wifi env s raw arg hcmd, if_neg (by simp [hrec])]
  unfold wifi_command
  rw [rfind_eq_find_of_count_le_one _ _ hc]
  cases find ("wifi=".toList ++ arg) ';' with
  | none => rfl
  | some i => simp

theorem wifi_command_missing_separator_witness :
    process_request demo_env demo_idle "wifi=other;ssid=Home".toList
      = .reply "Error: Invalid wifi command".toList demo_idle :=
  wifi_command_missing_separator demo_env demo_idle "wifi=other;ssid=Home".toList
    "other;ssid=Home".toList (by decide) rfl (by decide)

/-! ### Sensor driver: millivolt conversion -/

theorem ads_write_reg_gain (bus : Bus) (s : Sensor) (reg value : Nat) :
    (ads_write_reg bus s reg value).2.gain = s.gain := by
  unfold ads_write_reg
  split
  · rfl
  · split <;> rfl

theorem ads_read_reg_gain (bus : Bus) (s : Sensor) (reg value : Nat) :
    (ads_read_reg bus s reg value).2.2.gain = s.gain := by
  unfold ads_read_reg
  split
  · rfl
  · split
    · rfl
    · rfl
    · simp only
      split <;> rfl

theorem ads_poll_gain (bus : Bus) (fuel : Nat) : ∀ (waited_us : Nat) (s : Sensor),
    (ads_poll bus fuel waited_us s).2.gain = s.gain := by
  induction fuel with
  | zero => intro w s; rfl
  | succ fuel ih =>
    intro w s
    unfold ads_poll
    split
    · simp only
      split
      · exact ads_read_reg_gain bus s _ _
      · split
        · exact ads_read_reg_gain bus s _ _
        · rw [ih]; exact ads_read_reg_gain bus s _ _
    · rfl

theorem ads_read_raw_gain (bus : Bus) (s : Sensor) (channel : Nat) (raw : Int) :
    (ads_read_raw bus s channel raw).2.2.gain = s.gain := by
  unfold ads_read_raw
  simp only
  split
  · exact ads_write_reg_gain bus s _ _
  · split
    · rw [ads_poll_gain]; exact ads_write_reg_gain bus s _ _
    · rw [ads_read_reg_gain, ads_poll_gain]; exact ads_write_reg_gain bus s _ _

theorem ads_read_mv_of_raw (bus : Bus) (s : Sensor) (channel : Nat)
    (hready : s.ads_ready = true) (hok : (ads_read_raw bus s channel 0).1 = .ESP_OK) :
    (ads_read_mv bus s channel).1
      = ((ads_read_raw bus s channel 0).2.1 : ℚ) * ads_gain_lsb_mv s.gain := by
  unfold ads_read_mv
  simp only [hready, Bool.not_true, Bool.false_eq_true, if_false, OVERSAMPLE, ads_read_sum, hok,
    ne_eq, not_true_eq_false, zero_add]
  simp [ads_read_raw_gain]

theorem to_int16_of_int (r : Int) (h1 : -32768 ≤ r) (h2 : r ≤ 32767) :
    to_int16 (r % 65536).toNat = r := by
  unfold to_int16
  have h0 : (0 : Int) ≤ r % 65536 := Int.emod_nonneg _ (by norm_num)
  have h3 : r % 65536 < 65536 := Int.emod_lt_of_pos _ (by norm_num)
  have hm : (r % 65536).toNat % 2 ^ 16 = (r % 65536).toNat := Nat.mod_eq_of_lt (by omega)
  rw [hm]
  split <;> omega

theorem ads_read_raw_conversion_bus (s : Sensor) (channel word : Nat)
    (hready : s.ads_ready = true) (hpos : s.bus_pos = 0) :
    (ads_read_raw (conversion_bus word) s channel 0).1 = .ESP_OK ∧
    (ads_read_raw (conversion_bus word) s channel 0).2.1 = to_int16 word := by
  obtain ⟨g, d, r, l, p⟩ := s
  simp only at hready hpos
  subst hready hpos
  have hw : ads_write_reg (conversion_bus word) ⟨g, d, true, l, 0⟩ 0x01
      (ads_build_config g d channel) = (.ESP_OK, ⟨g, d, true, l, 1⟩) := rfl
  have hp : ads_poll (conversion_bus word) 20 0 ⟨g, d, true, l, 1⟩
      = (.ESP_OK, ⟨g, d, true, l, 2⟩) := by
    simp [ads_poll, ads_read_reg, conversion_bus]
  have hd : ads_read_reg (conversion_bus word) ⟨g, d, true, l, 2⟩ 0x00 0
      = (.ESP_OK, word % 2 ^ 16, ⟨g, d, true, l, 3⟩) := rfl
  have hm : to_int16 (word % 2 ^ 16) = to_int16 word := by
    unfold to_int16; rw [Nat.mod_mod]
  unfold ads_read_raw
  simp only [hw, hp, hd, ne_eq, not_true_eq_false, if_false, hm, and_self]

/-- C11: over exact rationals, for each of the six gains the LSB in millivolts is
`span * 1000 / 32768` with the spans 6.144, 4.096, 2.048, 1.024, 0.512, 0.256 V at the
indices 0..5; whenever the raw read succeeds with the sensor ready, `ads_read_mv` returns
exactly `raw * LSB(gain)` (linear in the raw count, zero at zero); and every signed 16-bit
count `r` is reached: on a healthy bus whose conversion register holds `r` the value is
`r * LSB(g)`. -/
theorem ads_read_mv_linear :
    (∀ g : AdsGain,
      ads_gain_lsb_mv g = span_of_index (ads_gain_to_index g).toNat * 1000 / 32768) ∧
    (∀ (bus : Bus) (s : Sensor) (channel : Nat), s.ads_ready = true →
      (ads_read_raw bus s channel 0).1 = .ESP_OK →
      (ads_read_mv bus s channel).1
        = ((ads_read_raw bus s channel 0).2.1 : ℚ) * ads_gain_lsb_mv s.gain) ∧
    (∀ (g : AdsGain) (rate : AdsDataRate) (channel : Nat) (r : Int),
      -32768 ≤ r → r ≤ 32767 →
      (ads_read_mv (conversion_bus (r % 65536).toNat) ⟨g, rate, true, false, 0⟩ channel).1
        = (r : ℚ) * ads_gain_lsb_mv g) := by
  refine ⟨?_, ads_read_mv_of_raw, ?_⟩
  · intro g
    have e0 : (0 : Int).toNat = 0 := rfl
    have e1 : (1 : Int).toNat = 1 := rfl
    have e2 : (2 : Int).toNat = 2 := rfl
    have e3 : (3 : Int).toNat = 3 := rfl
    have e4 : (4 : Int).toNat = 4 := rfl
    have e5 : (5 : Int).toNat = 5 := rfl
    cases g <;>
      norm_num [ads_gain_lsb_mv, span_of_index, ads_gain_to_index, e0, e1, e2, e3, e4, e5]
  · intro g rate channel r h1 h2
    have h := ads_read_raw_conversion_bus ⟨g, rate, true, false, 0⟩ channel (r % 65536).toNat
      rfl rfl
    rw [ads_read_mv_of_raw _ _ _ rfl h.1, h.2, to_int16_of_int r h1 h2]

theorem ads_read_mv_linear_witness :
    (ads_read_mv (conversion_bus ((-3 : Int) % 65536).toNat)
        ⟨.GAIN_TWO, .RATE_860SPS, true, false, 0⟩ 1).1
      = ((-3 : Int) : ℚ) * ads_gain_lsb_mv .GAIN_TWO :=
  ads_read_mv_linear.2.2 .GAIN_TWO .RATE_860SPS 1 (-3) (by decide) (by decide)

/-! ### Signal conditioner -/

theorem ema_run_concat (st : EmaState) (xs : List Mv3) (x : Mv3) :
    ema_run st (xs ++ [x]) = ema_update (ema_run st xs) x := by
  simp [ema_run, List.foldl_append]

theorem ema_update_init (st : EmaState) (x : Mv3) : (ema_update st x).ema_init = true := by
  unfold ema_update
  split
  · rfl
  · rename_i h
    simpa using h

theorem ema_run_init (st : EmaState) (xs : List Mv3) (h : xs ≠ []) :
    (ema_run st xs).ema_init = true := by
  rcases List.eq_nil_or_concat xs with rfl | ⟨ys, y, rfl⟩
  · exact absurd rfl h
  · rw [List.concat_eq_append, ema_run_concat]
    exact ema_update_init _ _

/-- C12: with floats as exact rationals, the first invocation of `read_adc` returns the
three raw readings of that invocation unchanged; every later invocation returns, per
channel, `e + 1/4 * (x - e)` with `e` that channel's previous output and `x` its new raw
reading (no other channel enters); the output is always the stored filter state, which
stays initialised after the first invocation (nothing resets it). -/
theorem read_adc_ema :
    (∀ (bus : Bus) (s : Sensor),
      (read_adc bus s EmaState.init).1 = (read_channels bus s).1) ∧
    (∀ (bus : Bus) (s : Sensor) (history : List Mv3), history ≠ [] →
      (read_adc bus s (ema_run EmaState.init history)).1
        = ⟨(ema_run EmaState.init history).e0
              + 1 / 4 * ((read_channels bus s).1.x0 - (ema_run EmaState.init history).e0),
            (ema_run EmaState.init history).e1
              + 1 / 4 * ((read_channels bus s).1.x1 - (ema_run EmaState.init history).e1),
            (ema_run EmaState.init history).e2
              + 1 / 4 * ((read_channels bus s).1.x2 - (ema_run EmaState.init history).e2)⟩) ∧
    (∀ (bus : Bus) (s : Sensor) (st : EmaState),
      (read_adc bus s st).2.2 = ema_update st (read_channels bus s).1 ∧
      (read_adc bus s st).1 = ⟨(read_adc bus s st).2.2.e0, (read_adc bus s st).2.2.e1,
        (read_adc bus s st).2.2.e2⟩ ∧
      (read_adc bus s st).2.2.ema_init = true) := by
  refine ⟨?_, ?_, ?_⟩
  · intro bus s
    simp [read_adc, ema_update, EmaState.init]
  · intro bus s history h
    have hi := ema_run_init EmaState.init history h
    simp [read_adc, ema_update, hi, EMA_ALPHA]
  · intro bus s st
    exact ⟨rfl, rfl, ema_update_init _ _⟩

theorem read_adc_ema_witness :
    (read_adc (conversion_bus 100) demo_sensor (ema_run EmaState.init [⟨8, 0, 4⟩])).1
      = ⟨(ema_run EmaState.init [⟨8, 0, 4⟩]).e0
            + 1 / 4 * ((read_channels (conversion_bus 100) demo_sensor).1.x0
              - (ema_run EmaState.init [⟨8, 0, 4⟩]).e0),
          (ema_run EmaState.init [⟨8, 0, 4⟩]).e1
            + 1 / 4 * ((read_channels (conversion_bus 100) demo_sensor).1.x1
              - (ema_run EmaState.init [⟨8, 0, 4⟩]).e1),
          (ema_run EmaState.init [⟨8, 0, 4⟩]).e2
            + 1 / 4 * ((read_channels (conversion_bus 100) demo_sensor).1.x2
              - (ema_run EmaState.init [⟨8, 0, 4⟩]).e2)⟩ :=
  read_adc_ema.2.1 (conversion_bus 100) demo_sensor [⟨8, 0, 4⟩] (by simp)

theorem ema_update_chan (st : EmaState) (v : Mv3) (i : Fin 3) (h : st.ema_init = true) :
    (ema_update st v).chan i = st.chan i + 1 / 4 * (v.chan i - st.chan i) := by
  fin_cases i <;> simp [ema_update, h, EmaState.chan, Mv3.chan, EMA_ALPHA]

theorem ema_update_chan_first (st : EmaState) (v : Mv3) (i : Fin 3) (h : st.ema_init = false) :
    (ema_update st v).chan i = v.chan i := by
  fin_cases i <;> simp [ema_update, h, EmaState.chan, Mv3.chan]

theorem ema_run_const (i : Fin 3) (x : ℚ) (xs : List Mv3) :
    ∀ st : EmaState, st.ema_init = true → (∀ v ∈ xs, v.chan i = x) →
      (ema_run st xs).chan i - x = (3 / 4) ^ xs.length * (st.chan i - x) := by
  induction xs with
  | nil => intro st _ _; simp [ema_run]
  | cons v vs ih =>
    intro st h hx
    have hv : v.chan i = x := hx v (by simp)
    have hstep := ema_update_chan st v i h
    have := ih (ema_update st v) (ema_update_init st v) (fun w hw => hx w (by simp [hw]))
    have hrun : ema_run st (v :: vs) = ema_run (ema_update st v) vs := rfl
    rw [hrun, this, hstep, hv, List.length_cons, pow_succ]
    ring

theorem ema_run_first (i : Fin 3) (x : ℚ) (xs : List Mv3) (hne : xs ≠ [])
    (hx : ∀ v ∈ xs, v.chan i = x) : (ema_run EmaState.init xs).chan i = x := by
  cases xs with
  | nil => exact absurd rfl hne
  | cons v vs =>
    have hrun : ema_run EmaState.init (v :: vs) = ema_run (ema_update EmaState.init v) vs := rfl
    have h1 := ema_update_chan_first EmaState.init v i rfl
    have := ema_run_const i x vs (ema_update EmaState.init v) (ema_update_init _ _)
      (fun w hw => hx w (by simp [hw]))
    rw [h1, hx v (by simp), sub_self, mul_zero] at this
    rw [hrun]
    linarith

/-- C13: in exact arithmetic, for each channel `i` and constant input `x`: from an
initialised filter state `e`, after `n` further invocations whose input on that channel
is `x` the output differs from `x` by exactly `(3/4)^n * |e - x|`; hence for every
`ε > 0` there is an `N` such that after any `n ≥ N` such invocations the output is within
`ε` of `x`; and when the filter starts uninitialised and every sample is `x`, the output
is `x` after every invocation. -/
theorem ema_converges_on_constant_input (i : Fin 3) (x : ℚ) :
    (∀ (st : EmaState) (xs : List Mv3), st.ema_init = true → (∀ v ∈ xs, v.chan i = x) →
      |(ema_run st xs).chan i - x| = (3 / 4) ^ xs.length * |st.chan i - x|) ∧
    (∀ (st : EmaState) (ε : ℚ), st.ema_init = true → 0 < ε →
      ∃ N, ∀ xs : List Mv3, N ≤ xs.length → (∀ v ∈ xs, v.chan i = x) →
        |(ema_run st xs).chan i - x| < ε) ∧
    (∀ xs : List Mv3, xs ≠ [] → (∀ v ∈ xs, v.chan i = x) →
      (ema_run EmaState.init xs).chan i = x) := by
  have habs : ∀ (st : EmaState) (xs : List Mv3), st.ema_init = true →
      (∀ v ∈ xs, v.chan i = x) →
      |(ema_run st xs).chan i - x| = (3 / 4) ^ xs.length * |st.chan i - x| := by
    intro st xs h hx
    rw [ema_run_const i x xs st h hx, abs_mul, abs_pow,
      abs_of_pos (by norm_num : (0 : ℚ) < 3 / 4)]
  refine ⟨habs, ?_, fun xs hne hx => ema_run_first i x xs hne hx⟩
  intro st ε h hε
  obtain ⟨N, hN⟩ : ∃ N : ℕ, (3 / 4 : ℚ) ^ N * |st.chan i - x| < ε := by
    by_cases h0 : |st.chan i - x| = 0
    · exact ⟨0, by rw [h0]; simpa using hε⟩
    · have hpos : 0 < |st.chan i - x| := lt_of_le_of_ne (abs_nonneg _) (Ne.symm h0)
      obtain ⟨N, hN⟩ := exists_pow_lt_of_lt_one (div_pos hε hpos) (by norm_num : (3 / 4 : ℚ) < 1)
      exact ⟨N, (lt_div_iff₀ hpos).mp hN⟩
  refine ⟨N, fun xs hlen hx => ?_⟩
  rw [habs st xs h hx]
  have hmono : (3 / 4 : ℚ) ^ xs.length ≤ (3 / 4) ^ N :=
    pow_le_pow_of_le_one (by norm_num) (by norm_num) hlen
  exact lt_of_le_of_lt (mul_le_mul_of_nonneg_right hmono (abs_nonneg _)) hN

theorem ema_converges_on_constant_input_witness :
    |(ema_run ⟨true, 0, 0, 0⟩ [⟨8, 1, 2⟩, ⟨8, 3, 4⟩]).chan 0 - 8|
      = (3 / 4) ^ [(⟨8, 1, 2⟩ : Mv3), ⟨8, 3, 4⟩].length * |(⟨true, 0, 0, 0⟩ : EmaState).chan 0 - 8| :=
  (ema_converges_on_constant_input 0 8).1 ⟨true, 0, 0, 0⟩ [⟨8, 1, 2⟩, ⟨8, 3, 4⟩] rfl
    (by intro v hv; simp at hv; rcases hv with rfl | rfl <;> rfl)

/-! ### Sensor driver: polling -/

theorem ads_read_reg_ok (bus : Bus) (s : Sensor) (reg value w : Nat)
    (hready : s.ads_ready = true) (hbus : bus s.bus_pos = .ok w) :
    ads_read_reg bus s reg value = (.ESP_OK, w % 2 ^ 16, { s with bus_pos := s.bus_pos + 1 }) := by
  simp [ads_read_reg, hready, hbus]

theorem ads_poll_never_ready (bus : Bus) (fuel : Nat) :
    ∀ (waited_us : Nat) (s : Sensor), s.ads_ready = true →
      waited_us + fuel * 1000 = 20000 →
      (∀ k, k < fuel → ∃ w, bus (s.bus_pos + k) = .ok w ∧ (w % 2 ^ 16) &&& 0x8000 = 0) →
      ads_poll bus fuel waited_us s = (.ESP_OK, { s with bus_pos := s.bus_pos + fuel }) := by
  induction fuel with
  | zero => intro w s _ _ _; rfl
  | succ fuel ih =>
    intro waited s hready hw hbus
    obtain ⟨w, hw0, hbit⟩ := hbus 0 (by omega)
    have hlt : waited < 20000 := by omega
    have hr := ads_read_reg_ok bus s 0x01 0 w hready (by simpa using hw0)
    unfold ads_poll
    rw [if_pos hlt]
    simp only [hr, ne_eq, not_true_eq_false, if_false, hbit]
    rw [ih (waited + 1000) { s with bus_pos := s.bus_pos + 1 } hready (by omega)
      (fun k hk => by
        obtain ⟨w', h1, h2⟩ := hbus (k + 1) (by omega)
        exact ⟨w', by simpa [Nat.add_assoc, Nat.add_comm 1 k] using h1, h2⟩)]
    simp [Nat.add_assoc, Nat.add_comm 1 fuel]

/-- C14 as stated fails: on `stale_bus` the write succeeds and the twenty status polls
succeed without the ready bit, yet the read attempt returns `ESP_OK` with the content
of the conversion register as the conversion value. -/
theorem ads_read_raw_timeout_counterexample :
    (∀ n, 1 ≤ n → n ≤ 20 → stale_bus n = .ok 0) ∧
    stale_bus 0 = .ok 0 ∧
    ads_read_raw stale_bus demo_sensor 0 0
      = (.ESP_OK, 0x1234, { demo_sensor with bus_pos := 22 }) := by
  refine ⟨?_, rfl, ?_⟩
  · intro n h1 h2
    have : n ≠ 21 := by omega
    simp [stale_bus, this]
  · simp [ads_read_raw, ads_write_reg, ads_poll, ads_read_reg, stale_bus, demo_sensor, to_int16]

/-- C14, amended: in a raw read, if the configuration write succeeds and every status
poll succeeds without the ready bit (bit 15), the polling loop ends after exactly 20
polls without an error; the attempt then reads the conversion register and returns the
outcome of that read, so it succeeds with the register's value whenever that read
succeeds. -/
theorem ads_read_raw_poll_bounded (bus : Bus) (s : Sensor) (channel : Nat) (raw : Int)
    (hready : s.ads_ready = true) (hwrite : ∃ w, bus s.bus_pos = .ok w)
    (hpoll : ∀ k, k < 20 →
      ∃ w, bus (s.bus_pos + 1 + k) = .ok w ∧ (w % 2 ^ 16) &&& 0x8000 = 0) :
    ads_poll bus 20 0 (ads_write_reg bus s 0x01 (ads_build_config s.gain s.data_rate channel)).2
      = (.ESP_OK, { s with bus_pos := s.bus_pos + 21 }) ∧
    ads_read_raw bus s channel raw
      = ((ads_read_reg bus { s with bus_pos := s.bus_pos + 21 } 0x00 0).1,
          to_int16 (ads_read_reg bus { s with bus_pos := s.bus_pos + 21 } 0x00 0).2.1,
          (ads_read_reg bus { s with bus_pos := s.bus_pos + 21 } 0x00 0).2.2) ∧
    (∀ w, bus (s.bus_pos + 21) = .ok w →
      ads_read_raw bus s channel raw
        = (.ESP_OK, to_int16 w, { s with bus_pos := s.bus_pos + 22 })) := by
  obtain ⟨w0, hw0⟩ := hwrite
  have hw : ads_write_reg bus s 0x01 (ads_build_config s.gain s.data_rate channel)
      = (.ESP_OK, { s with bus_pos := s.bus_pos + 1 }) := by
    simp [ads_write_reg, hready, hw0]
  have hp := ads_poll_never_ready bus 20 0 { s with bus_pos := s.bus_pos + 1 } hready (by norm_num)
    hpoll
  have hraw : ads_read_raw bus s channel raw
      = ((ads_read_reg bus { s with bus_pos := s.bus_pos + 21 } 0x00 0).1,
          to_int16 (ads_read_reg bus { s with bus_pos := s.bus_pos + 21 } 0x00 0).2.1,
          (ads_read_reg bus { s with bus_pos := s.bus_pos + 21 } 0x00 0).2.2) := by
    unfold ads_read_raw
    simp only [hw, hp, ne_eq, not_true_eq_false, if_false]
  refine ⟨by rw [hw]; exact hp, hraw, ?_⟩
  intro w hbus
  rw [hraw, ads_read_reg_ok bus { s with bus_pos := s.bus_pos + 21 } 0x00 0 w hready hbus]
  simp [to_int16]

theorem ads_read_raw_poll_bounded_witness :
    ads_read_raw stale_bus demo_sensor 0 0
      = (.ESP_OK, to_int16 0x1234, { demo_sensor with bus_pos := demo_sensor.bus_pos + 22 }) :=
  (ads_read_raw_poll_bounded stale_bus demo_sensor 0 0 rfl ⟨0, rfl⟩
    (fun k hk => ⟨0, by
      have : demo_sensor.bus_pos + 1 + k ≠ 21 := by simp only [demo_sensor]; omega
      simp [stale_bus, this], rfl⟩)).2.2 0x1234 rfl

/-! ### Write batch under mutex timeouts -/

theorem acquisition_cycle_session (io : CycleIO) (s : State) (h : SessionInv s)
    (hopen : io.fopen_ok = true) :
    SessionInv (acquisition_cycle io s) ∧
    (acquisition_cycle io s).current_file_name = s.current_file_name ∧
    session_lines (acquisition_cycle io s)
      = session_lines s ++ (if cycle_stores io s then [format_line io.sample] else []) := by
  obtain ⟨hrec, hmnt, hname, hlen, hidx⟩ := h
  have hne : s.current_file_name.isEmpty = false := by
    cases hc : s.current_file_name with
    | nil => exact absurd hc hname
    | cons a l => rfl
  cases htp : io.take_push
  · refine ⟨⟨?_, ?_, ?_, ?_, ?_⟩, ?_, ?_⟩ <;>
      simp [acquisition_cycle, cycle_stores, session_lines, hrec, hmnt, htp, hname, hlen, hidx]
  · by_cases hroom : s.sd_buffer_index < SD_BUFFER_SIZE
    · have ht := take_set_succ s.sd_buffer s.sd_buffer_index io.sample (by omega)
      by_cases hfull : s.sd_buffer_index + 1 ≥ SD_BUFFER_SIZE
      · cases htf : io.take_flush
        · refine ⟨⟨?_, ?_, ?_, ?_, ?_⟩, ?_, ?_⟩ <;>
            simp [acquisition_cycle, cycle_stores, session_lines, batch_append,
              flush_buffer_to_sd, hrec, hmnt, htp, htf, hname, hlen, hroom, hfull, hne, ht]
          omega
        · refine ⟨⟨?_, ?_, ?_, ?_, ?_⟩, ?_, ?_⟩ <;>
            simp [acquisition_cycle, cycle_stores, session_lines, batch_append,
              flush_buffer_to_sd, hrec, hmnt, htp, htf, hname, hlen, hroom, hfull, hne, ht,
              hopen, file_lines_append_lines]
      · refine ⟨⟨?_, ?_, ?_, ?_, ?_⟩, ?_, ?_⟩ <;>
          simp [acquisition_cycle, cycle_stores, session_lines, batch_append,
            hrec, hmnt, htp, hname, hlen, hroom, hfull, ht]
        omega
    · have hi : s.sd_buffer_index = SD_BUFFER_SIZE := by omega
      have hpos : 0 < s.sd_buffer_index := by rw [hi]; decide
      cases htf : io.take_flush
      · refine ⟨⟨?_, ?_, ?_, ?_, ?_⟩, ?_, ?_⟩ <;>
          simp [acquisition_cycle, cycle_stores, session_lines, batch_append,
            flush_buffer_to_sd, hrec, hmnt, htp, htf, hname, hlen, hroom, hne, hidx]
      · refine ⟨⟨?_, ?_, ?_, ?_, ?_⟩, ?_, ?_⟩ <;>
          simp [acquisition_cycle, cycle_stores, session_lines, batch_append,
            flush_buffer_to_sd, hrec, hmnt, htp, htf, hname, hlen, hroom, hne, hpos,
            hopen, file_lines_append_lines]

theorem run_cycles_session (ios : List CycleIO) :
    ∀ s : State, SessionInv s → (∀ io ∈ ios, io.fopen_ok = true) →
      SessionInv (run_cycles s ios) ∧
      (run_cycles s ios).current_file_name = s.current_file_name ∧
      session_lines (run_cycles s ios)
        = session_lines s ++ (stored_samples s ios).map format_line := by
  induction ios with
  | nil => intro s h _; exact ⟨h, rfl, by simp [run_cycles, stored_samples]⟩
  | cons io ios ih =>
    intro s h hopen
    obtain ⟨a1, a2, a3⟩ := acquisition_cycle_session io s h (hopen io (by simp))
    obtain ⟨b1, b2, b3⟩ := ih (acquisition_cycle io s) a1 (fun x hx => hopen x (by simp [hx]))
    have hrun : run_cycles s (io :: ios) = run_cycles (acquisition_cycle io s) ios := rfl
    rw [hrun]
    refine ⟨b1, b2.trans a2, ?_⟩
    rw [b3, a3]
    cases hc : cycle_stores io s <;> simp [stored_samples, hc]

theorem stored_samples_all (ios : List CycleIO) :
    ∀ s : State, SessionInv s → s.sd_buffer_index < SD_BUFFER_SIZE →
      (∀ io ∈ ios, io.take_push = true ∧ io.take_flush = true ∧ io.fopen_ok = true) →
      stored_samples s ios = ios.map CycleIO.sample := by
  induction ios with
  | nil => intro s _ _ _; rfl
  | cons io ios ih =>
    intro s h hroom hok
    obtain ⟨k1, k2, k3⟩ := hok io (by simp)
    have hst : cycle_stores io s = true := by
      simp [cycle_stores, h.recording, h.mnt, k1, hroom]
    have hnext : (acquisition_cycle io s).sd_buffer_index < SD_BUFFER_SIZE := by
      by_cases hf : s.sd_buffer_index + 1 < SD_BUFFER_SIZE
      · have := (acquisition_cycle_filling io s h.recording h.mnt h.len k1 hf).2.2.2.2.2.1
        omega
      · have := (acquisition_cycle_flushing io s h.recording h.mnt h.name h.len k1 k2 k3
          (by omega)).2.1
        rw [this]; decide
    have := ih (acquisition_cycle io s) (acquisition_cycle_session io s h k3).1 hnext
      (fun x hx => hok x (by simp [hx]))
    simp [stored_samples, hst, this]

/-- C15 as stated fails: in a running session whose file opens without error, a cycle
whose 2 ms mutex acquisition times out produces a sample that is neither appended to
the file nor held in the write batch. -/
theorem missed_push_drops_sample :
    missed_push_io.fopen_ok = true ∧
    demo_recording.is_recording = true ∧
    session_lines demo_recording = [] ∧
    session_lines (run_cycles demo_recording [missed_push_io]) = [] ∧
    [missed_push_io].map (fun io => format_line io.sample) ≠ [] := by
  refine ⟨rfl, rfl, by decide, by decide, by simp⟩

/-- C15, amended: in a recording session in which opening the file never fails, no
sample that entered the write batch is dropped, whichever mutex acquisitions time out:
after any number of acquisition cycles the session stays active and the lines of the
file followed by the samples still in the batch are the lines before, followed by the
samples of exactly those cycles that acquired the 2 ms mutex while the batch had room,
in order (a skipped flush leaves the batch intact and is retried); when every
acquisition succeeds and the batch starts with room these are all samples produced. -/
theorem stored_samples_never_dropped (s : State) (ios : List CycleIO)
    (hrec : s.is_recording = true) (hmnt : s.sd_mounted = true)
    (hname : s.current_file_name ≠ []) (hlen : s.sd_buffer.length = SD_BUFFER_SIZE)
    (hidx : s.sd_buffer_index ≤ SD_BUFFER_SIZE)
    (hopen : ∀ io ∈ ios, io.fopen_ok = true) :
    (run_cycles s ios).is_recording = true ∧
    (run_cycles s ios).current_file_name = s.current_file_name ∧
    session_lines (run_cycles s ios)
      = session_lines s ++ (stored_samples s ios).map format_line ∧
    (s.sd_buffer_index < SD_BUFFER_SIZE →
      (∀ io ∈ ios, io.take_push = true ∧ io.take_flush = true) →
      stored_samples s ios = ios.map CycleIO.sample) := by
  obtain ⟨h1, h2, h3⟩ := run_cycles_session ios s ⟨hrec, hmnt, hname, hlen, hidx⟩ hopen
  exact ⟨h1.recording, h2, h3,
    fun hroom hok => stored_samples_all ios s ⟨hrec, hmnt, hname, hlen, hidx⟩ hroom
      (fun io hio => ⟨(hok io hio).1, (hok io hio).2, hopen io hio⟩)⟩

theorem stored_samples_never_dropped_witness :
    session_lines (run_cycles demo_recording [missed_push_io])
      = session_lines demo_recording
          ++ (stored_samples demo_recording [missed_push_io]).map format_line :=
  (stored_samples_never_dropped demo_recording [missed_push_io] rfl rfl (by decide)
    (List.length_replicate _ _) (Nat.zero_le _)
    (fun io h => by rw [List.mem_singleton.mp h]; rfl)).2.2.1

/-! ### Flush failure -/

/-- C16: when `flush_buffer_to_sd` runs with storage mounted, a non-empty session name,
the mutex acquired and a non-empty write batch, and `fopen` fails, then recording is
deactivated, the batch index is reset to zero, the card's files are unchanged, the
mutex is released, and the dispatcher still answers: `checkRecording` replies
`Not recording`. -/
theorem flush_open_failure_ends_session (s : State)
    (hmnt : s.sd_mounted = true) (hname : s.current_file_name ≠ [])
    (hcount : 0 < s.sd_buffer_index) :
    (flush_buffer_to_sd true false s).is_recording = false ∧
    (flush_buffer_to_sd true false s).sd_buffer_index = 0 ∧
    (flush_buffer_to_sd true false s).files = s.files ∧
    (flush_buffer_to_sd true false s).sd_mutex_held = false ∧
    (∀ (env : Env) (raw : Str), trim raw = "checkRecording".toList →
      process_request env (flush_buffer_to_sd true false s) raw
        = .reply "Not recording".toList (flush_buffer_to_sd true false s)) := by
  have hne : s.current_file_name.isEmpty = false := by
    cases hc : s.current_file_name with
    | nil => exact absurd hc hname
    | cons a l => rfl
  have hflush : flush_buffer_to_sd true false s
      = { s with is_recording := false, sd_buffer_index := 0, sd_mutex_held := false } := by
    simp [flush_buffer_to_sd, hmnt, hne, hcount]
  refine ⟨by rw [hflush], by rw [hflush], by rw [hflush], by rw [hflush], ?_⟩
  intro env raw hcmd
  rw [process_check env _ raw hcmd, hflush]
  simp [check_recording_status]

theorem flush_open_failure_ends_session_witness :
    (flush_buffer_to_sd true false { demo_recording with sd_buffer_index := 3 }).is_recording
      = false :=
  (flush_open_failure_ends_session { demo_recording with sd_buffer_index := 3 } rfl
    (by decide) (by decide)).1

/-! ### Sensor driver: configuration word -/

theorem ads_build_config_eq (g : AdsGain) (r : AdsDataRate) (c : Nat) (hc : c < 4) :
    ads_build_config g r c
      = 0x8000 + (4 + c) * 2 ^ 12 + (ads_gain_to_index g).toNat * 2 ^ 9 + 2 ^ 8
          + ads_data_rate_index r * 2 ^ 5 + 3 := by
  interval_cases c <;> cases g <;> cases r <;> rfl

theorem ads_gain_index_lt (g : AdsGain) : (ads_gain_to_index g).toNat < 6 := by
  cases g <;> decide

theorem ads_data_rate_index_lt (r : AdsDataRate) : ads_data_rate_index r < 8 := by
  cases r <;> decide

theorem ads_gain_index_inj (g g' : AdsGain)
    (h : (ads_gain_to_index g).toNat = (ads_gain_to_index g').toNat) : g = g' := by
  cases g <;> cases g' <;> first | rfl | (exact absurd h (by decide))

theorem ads_data_rate_index_inj (r r' : AdsDataRate)
    (h : ads_data_rate_index r = ads_data_rate_index r') : r = r' := by
  cases r <;> cases r' <;> first | rfl | (exact absurd h (by decide))

/-- C17: for every channel `c` in 0..3, gain and data rate, the word of
`ads_build_config` is `0x8000 + (4+c)*2^12 + g*2^9 + 2^8 + r*2^5 + 3` (with `g`, `r` the
gain and data-rate indices) and fits 16 bits; the fields do not overlap: bits 14..12,
11..9 and 7..5 decode to `4+c`, `g`, `r`, bits 15 and 8 are set and the low five bits
are 3; and the map from `(c, g, r)` to the word is injective. -/
theorem ads_build_config_fields :
    (∀ (g : AdsGain) (r : AdsDataRate) (c : Nat), c < 4 →
      ads_build_config g r c
        = 0x8000 + (4 + c) * 2 ^ 12 + (ads_gain_to_index g).toNat * 2 ^ 9 + 2 ^ 8
            + ads_data_rate_index r * 2 ^ 5 + 3 ∧
      ads_build_config g r c < 2 ^ 16 ∧
      ads_build_config g r c / 2 ^ 12 % 8 = 4 + c ∧
      ads_build_config g r c / 2 ^ 9 % 8 = (ads_gain_to_index g).toNat ∧
      ads_build_config g r c / 2 ^ 5 % 8 = ads_data_rate_index r ∧
      ads_build_config g r c / 2 ^ 15 % 2 = 1 ∧
      ads_build_config g r c / 2 ^ 8 % 2 = 1 ∧
      ads_build_config g r c % 2 ^ 5 = 3) ∧
    (∀ (g g' : AdsGain) (r r' : AdsDataRate) (c c' : Nat), c < 4 → c' < 4 →
      ads_build_config g r c = ads_build_config g' r' c' → c = c' ∧ g = g' ∧ r = r') := by
  have hfields : ∀ (g : AdsGain) (r : AdsDataRate) (c : Nat), c < 4 →
      ads_build_config g r c / 2 ^ 12 % 8 = 4 + c ∧
      ads_build_config g r c / 2 ^ 9 % 8 = (ads_gain_to_index g).toNat ∧
      ads_build_config g r c / 2 ^ 5 % 8 = ads_data_rate_index r := by
    intro g r c hc
    have hg := ads_gain_index_lt g
    have hr := ads_data_rate_index_lt r
    rw [ads_build_config_eq g r c hc]
    refine ⟨?_, ?_, ?_⟩ <;> omega
  refine ⟨?_, ?_⟩
  · intro g r c hc
    have hg := ads_gain_index_lt g
    have hr := ads_data_rate_index_lt r
    obtain ⟨f1, f2, f3⟩ := hfields g r c hc
    refine ⟨ads_build_config_eq g r c hc, ?_, f1, f2, f3, ?_, ?_, ?_⟩ <;>
      (rw [ads_build_config_eq g r c hc]; omega)
  · intro g g' r r' c c' hc hc' h
    obtain ⟨f1, f2, f3⟩ := hfields g r c hc
    obtain ⟨f1', f2', f3'⟩ := hfields g' r' c' hc'
    rw [h] at f1 f2 f3
    refine ⟨by omega, ads_gain_index_inj g g' (by omega), ads_data_rate_index_inj r r' (by omega)⟩

theorem ads_build_config_fields_witness :
    ads_build_config .GAIN_ONE .RATE_860SPS 2 / 2 ^ 12 % 8 = 4 + 2 :=
  (ads_build_config_fields.1 .GAIN_ONE .RATE_860SPS 2 (by decide)).2.2.1

/-! ### Recording flag and write batch -/

theorem batchInv_congr {s t : State} (h : BatchInv s)
    (h1 : t.is_recording = s.is_recording) (h2 : t.sd_mounted = s.sd_mounted)
    (h3 : t.current_file_name = s.current_file_name)
    (h4 : t.sd_buffer_index = s.sd_buffer_index) : BatchInv t := by
  unfold BatchInv
  rw [h1, h2, h3, h4]
  exact h

theorem flush_batchInv (fopen_ok : Bool) (t : State)
    (h : t.is_recording = true → t.sd_mounted = true ∧ t.current_file_name ≠ [])
    (h0 : t.is_recording = false →
      t.sd_buffer_index = 0 ∨ (t.sd_mounted = true ∧ t.current_file_name ≠ [])) :
    BatchInv (flush_buffer_to_sd true fopen_ok t) := by
  unfold flush_buffer_to_sd
  split
  · rename_i hg
    refine ⟨h, fun hr => ?_⟩
    rcases h0 hr with h0 | ⟨hm, hn⟩
    · exact h0
    · exfalso
      have : t.current_file_name.isEmpty = false := by
        cases hc : t.current_file_name with
        | nil => exact absurd hc hn
        | cons a l => rfl
      simp [hm, this] at hg
  · rename_i hg
    have hm : t.sd_mounted = true := by
      cases hc : t.sd_mounted
      · simp [hc] at hg
      · rfl
    have hn : t.current_file_name ≠ [] := by
      intro hc
      simp [hc] at hg
    simp only [Bool.not_true, Bool.false_eq_true, if_false]
    split
    · split
      · exact ⟨fun hr => (by cases hr), fun _ => rfl⟩
      · exact ⟨fun _ => ⟨hm, hn⟩, fun _ => rfl⟩
    · rename_i hc
      exact ⟨fun _ => ⟨hm, hn⟩, fun _ => (by simpa using hc)⟩

theorem batchInv_app_main (probe_ok spi_init_ok mount_ok : Bool) (files : List (Str × List Str))
    (nvs : Option WifiSettings) : BatchInv (app_main probe_ok spi_init_ok mount_ok files nvs) := by
  have h1 : (app_main probe_ok spi_init_ok mount_ok files nvs).is_recording = false := by
    unfold app_main init_sd_card
    simp only
    split
    · rfl
    · split
      · rfl
      · split <;> rfl
  have h2 : (app_main probe_ok spi_init_ok mount_ok files nvs).sd_buffer_index = 0 := by
    unfold app_main init_sd_card
    simp only
    split
    · rfl
    · split
      · rfl
      · split <;> rfl
  exact ⟨fun h => (by rw [h1] at h; cases h), fun _ => h2⟩

theorem batchInv_cycle (io : CycleIO) (s : State) (h : BatchInv s)
    (h1 : io.take_push = true) (h2 : io.take_flush = true) :
    BatchInv (data_collection_step io s) := by
  unfold data_collection_step
  split
  · unfold acquisition_cycle
    simp only [h1, if_true]
    by_cases hr : s.is_recording = true
    case neg =>
      have hf : s.is_recording = false := by simpa using hr
      simp only [hf, Bool.false_and, Bool.false_eq_true, if_false]
      exact batchInv_congr h hf.symm rfl rfl rfl
    case pos =>
      obtain ⟨hm, hn⟩ := h.1 hr
      simp only [hr, hm, Bool.and_self, if_true, h2]
      unfold batch_append
      simp only
      split
      · simp only
        split
        · exact flush_batchInv _ _ (fun _ => ⟨rfl, hn⟩) (fun hf => (by cases hf))
        · exact ⟨fun _ => ⟨rfl, hn⟩, fun hf => (by cases hf)⟩
      · simp only [if_true]
        exact flush_batchInv _ _ (fun _ => ⟨rfl, hn⟩) (fun hf => (by cases hf))
  · exact h

theorem batchInv_host_file (fopen_ok : Bool) (s : State) (file_name : Str) (h : BatchInv s) :
    BatchInv (host_file true fopen_ok s file_name) := by
  unfold host_file
  split
  · exact h
  · split
    · exact flush_batchInv _ _ h.1 (fun hf => Or.inl (h.2 hf))
    · exact h

theorem batchInv_same {s t : State} (h : BatchInv s) (e : SameBatch t s) : BatchInv t :=
  batchInv_congr h e.1 e.2.1 e.2.2.1 e.2.2.2

theorem sameBatch_refl (s : State) : SameBatch s s := ⟨rfl, rfl, rfl, rfl⟩

theorem read_adc_pretty_same (env : Env) (s : State) : SameBatch (read_adc_pretty env s).2 s := by
  unfold read_adc_pretty
  split
  · exact sameBatch_refl s
  · simp only
    split <;> split <;> exact ⟨rfl, rfl, rfl, rfl⟩

theorem set_gain_command_same (s : State) (command : Str) :
    SameBatch (set_gain_command s command).state s := by
  unfold set_gain_command
  split
  · exact sameBatch_refl s
  · simp only
    split <;> exact ⟨rfl, rfl, rfl, rfl⟩

theorem wifi_command_same (env : Env) (s : State) (command : Str) :
    SameBatch (wifi_command env s command).state s := by
  have hsave : ∀ w, SameBatch (save_wifi_settings env.nvs_open_ok s w) s := by
    intro w
    unfold save_wifi_settings
    split <;> exact ⟨rfl, rfl, rfl, rfl⟩
  unfold wifi_command
  split
  · split
    · exact sameBatch_refl s
    · split
      · exact sameBatch_refl s
      · split
        · exact sameBatch_refl s
        · split
          · exact sameBatch_refl s
          · exact hsave _
  · exact sameBatch_refl s

theorem delete_file_same (unlink_ok : Bool) (s : State) (file_name : Str) :
    SameBatch (delete_file unlink_ok s file_name).2 s := by
  unfold delete_file
  split_ifs <;> exact ⟨rfl, rfl, rfl, rfl⟩

theorem batchInv_start (env : Env) (s : State) (command : Str) (h : BatchInv s) :
    BatchInv (start_command env s command).state := by
  unfold start_command
  split
  · exact h
  · rename_i hm
    split
    · exact h
    · split
      · exact h
      · rename_i name hname
        refine ⟨fun _ => ⟨by simpa using hm, ?_⟩, fun hf => (by cases hf)⟩
        show name ≠ []
        cases hsub : substr_from command 6 with
        | none => rw [hsub] at hname; cases hname
        | some arg =>
          rw [hsub] at hname
          simp only [Option.some_bind, recording_name_eq, Option.some.injEq] at hname
          intro hnil
          have := (sanitize_filename_props env.clock (after_last_slash (trim arg))).2.1
          rw [hname, hnil] at this
          simp at this

theorem batchInv_stop (env : Env) (s : State) (h : BatchInv s) (htake : env.sd_take = true) :
    BatchInv (stop_command env s).state := by
  have hf := flush_batchInv env.fopen_ok { s with is_recording := false }
    (fun hr => (by cases hr))
    (fun _ => by
      by_cases hr : s.is_recording = true
      · exact Or.inr (h.1 hr)
      · exact Or.inl (h.2 (by simpa using hr)))
  have hrec := flush_not_recording true env.fopen_ok { s with is_recording := false } rfl
  unfold stop_command
  rw [htake]
  refine ⟨fun hr => ?_, fun _ => hf.2 hrec⟩
  simp only [Outcome.state] at hr
  rw [hrec] at hr
  cases hr

theorem batchInv_deinit (env : Env) (s : State) (h : BatchInv s) (htake : env.sd_take = true) :
    BatchInv (deinit_command env s).state := by
  have hdeinit : ∀ t : State, t.is_recording = false → t.sd_buffer_index = 0 →
      BatchInv (deinit_sd_card t) := by
    intro t h1 h2
    have e1 : (deinit_sd_card t).is_recording = false := by
      rw [deinit_sd_card_is_recording]; exact h1
    have e2 : (deinit_sd_card t).sd_buffer_index = 0 := by
      unfold deinit_sd_card
      simp only
      split <;> split <;> exact h2
    exact ⟨fun hr => (by rw [e1] at hr; cases hr), fun _ => e2⟩
  unfold deinit_command
  split
  · simp only [Outcome.state]
    split
    · rename_i hm hr
      rw [htake]
      have hf := flush_batchInv env.fopen_ok { s with is_recording := false }
        (fun hr => (by cases hr)) (fun _ => Or.inr (h.1 hr))
      have hrec := flush_not_recording true env.fopen_ok { s with is_recording := false } rfl
      exact hdeinit _ hrec (hf.2 hrec)
    · rename_i hm hr
      have hr' : s.is_recording = false := by simpa using hr
      exact hdeinit s hr' (h.2 hr')
  · exact h

theorem batchInv_init (env : Env) (s : State) (h : BatchInv s) :
    BatchInv (init_command env s).state := by
  unfold init_command
  split
  · rename_i hm
    have hm' : s.sd_mounted = false := by simpa using hm
    have hr : s.is_recording = false := by
      by_contra hc
      have := (h.1 (by simpa using hc)).1
      rw [hm'] at this; cases this
    have hi := h.2 hr
    have key : (init_sd_card env.spi_init_ok env.mount_ok s).2.is_recording = false ∧
        (init_sd_card env.spi_init_ok env.mount_ok s).2.sd_buffer_index = 0 := by
      unfold init_sd_card
      split
      · exact ⟨hr, hi⟩
      · split
        · exact ⟨hr, hi⟩
        · simp only
          split <;> exact ⟨hr, hi⟩
    simp only
    split <;>
      exact ⟨fun hc => (by
        have hk := key.1
        simp only [Outcome.state] at hc
        rw [hk] at hc
        cases hc), fun _ => key.2⟩
  · exact h

theorem batchInv_ite {c : Prop} [Decidable c] {a b : Outcome}
    (ha : BatchInv a.state) (hb : BatchInv b.state) : BatchInv (if c then a else b).state := by
  split
  · exact ha
  · exact hb

theorem batchInv_delete (env : Env) (s : State) (command : Str) (h : BatchInv s) :
    BatchInv (match substr_from command 7 with
      | none => Outcome.out_of_range s
      | some file_name =>
        Outcome.reply (delete_file env.unlink_ok s file_name).1
          (delete_file env.unlink_ok s file_name).2).state := by
  split
  · exact h
  · exact batchInv_same h (delete_file_same _ s _)

theorem batchInv_process_request (env : Env) (s : State) (raw : Str) (h : BatchInv s)
    (htake : env.sd_take = true) : BatchInv (process_request env s raw).state := by
  delta process_request
  refine batchInv_ite (batchInv_same h (read_adc_pretty_same env s)) ?_
  refine batchInv_ite h ?_
  refine batchInv_ite (batchInv_ite h h) ?_
  refine batchInv_ite (batchInv_ite h (batchInv_same h (set_gain_command_same s _))) ?_
  refine batchInv_ite (batchInv_ite h (batchInv_same h (wifi_command_same env s _))) ?_
  refine batchInv_ite (batchInv_start env s _ h) ?_
  refine batchInv_ite (batchInv_stop env s h htake) ?_
  refine batchInv_ite (batchInv_delete env s _ h) ?_
  refine batchInv_ite h ?_
  refine batchInv_ite h ?_
  refine batchInv_ite (batchInv_deinit env s h htake) ?_
  exact batchInv_ite (batchInv_init env s h) h

theorem reachable_batchInv (s : State) (h : Reachable s) : BatchInv s := by
  induction h with
  | boot p i m f n => exact batchInv_app_main p i m f n
  | cycle s io _ h1 h2 ih => exact batchInv_cycle io s ih h1 h2
  | command s env raw _ ht ih => exact batchInv_process_request env s raw ih ht
  | transfer s fo name _ ih => exact batchInv_host_file fo s name ih

theorem process_start_accepted (env : Env) (s : State) (raw arg : Str)
    (hcmd : trim raw = "start=".toList ++ arg)
    (hidle : s.is_recording = false) (hmnt : s.sd_mounted = true) :
    (process_request env s raw).state
      = { s with current_file_name := sanitize_filename env.clock (after_last_slash (trim arg)),
                 is_recording := true, sampling_enabled := true } := by
  rw [process_start env s raw arg hcmd]
  unfold start_command
  rw [show substr_from ("start=".toList ++ arg) 6 = some arg from
    substr_from_append "start=".toList arg]
  simp [hidle, hmnt, recording_name_eq, Outcome.state]

/-- C18: with every storage-mutex acquisition succeeding, in every state reachable
from start-up by acquisition cycles, dispatcher commands and file transfers, an inactive
recording flag implies an empty write batch (index 0). Consequently an accepted `start=`
in such a state begins the session with an empty batch, and whatever the session's file
and batch hold after any further cycles is what the file held at the start followed by
samples stored by those cycles only. -/
theorem idle_implies_empty_batch :
    (∀ s : State, Reachable s → s.is_recording = false → s.sd_buffer_index = 0) ∧
    (∀ (s : State) (env : Env) (raw arg : Str), Reachable s →
      trim raw = "start=".toList ++ arg → s.is_recording = false → s.sd_mounted = true →
      (process_request env s raw).state.is_recording = true ∧
      (process_request env s raw).state.sd_buffer_index = 0 ∧
      (s.sd_buffer.length = SD_BUFFER_SIZE →
        ∀ ios : List CycleIO, (∀ io ∈ ios, io.fopen_ok = true) →
          session_lines (run_cycles (process_request env s raw).state ios)
            = (file_lines s.files (process_request env s raw).state.current_file_name).getD []
                ++ (stored_samples (process_request env s raw).state ios).map format_line)) := by
  refine ⟨fun s h hr => (reachable_batchInv s h).2 hr, ?_⟩
  intro s env raw arg h hcmd hidle hmnt
  have h0 := (reachable_batchInv s h).2 hidle
  have hst := process_start_accepted env s raw arg hcmd hidle hmnt
  have hname : sanitize_filename env.clock (after_last_slash (trim arg)) ≠ [] := by
    intro hnil
    have := (sanitize_filename_props env.clock (after_last_slash (trim arg))).2.1
    rw [hnil] at this
    simp at this
  refine ⟨by rw [hst], by rw [hst]; exact h0, ?_⟩
  intro hlen ios hopen
  have hinv : SessionInv (process_request env s raw).state := by
    rw [hst]
    exact ⟨rfl, hmnt, hname, hlen, by simp [h0]⟩
  rw [(run_cycles_session ios _ hinv hopen).2.2]
  congr 1
  rw [hst]
  simp [session_lines, h0]

theorem idle_implies_empty_batch_witness :
    (process_request demo_env (app_main true true true [] none) "stop".toList).state.sd_buffer_index
      = 0 :=
  idle_implies_empty_batch.1 _
    (Reachable.command _ demo_env "stop".toList (Reachable.boot true true true [] none) rfl)
    (by decide)

/-! ### Sensor driver: retry -/

/-- C19: when the sensor is ready, the first transfer of `ads_read_reg` fails and the
retry succeeds, the call returns `ESP_OK` with the value read but leaves `ads_ready`
cleared, so the next register read is refused with `ESP_ERR_INVALID_STATE`. -/
theorem ads_read_reg_retry_leaves_not_ready (bus : Bus) (s : Sensor) (reg value w : Nat)
    (hready : s.ads_ready = true) (hfirst : bus s.bus_pos = .fail)
    (hretry : bus (s.bus_pos + 1) = .ok w) :
    ads_read_reg bus s reg value
      = (.ESP_OK, w % 2 ^ 16, { s with bus_pos := s.bus_pos + 2, ads_ready := false }) ∧
    (ads_read_reg bus s reg value).2.2.ads_ready = false ∧
    (ads_read_reg bus (ads_read_reg bus s reg value).2.2 reg value).1
      = .ESP_ERR_INVALID_STATE := by
  have h : ads_read_reg bus s reg value
      = (.ESP_OK, w % 2 ^ 16, { s with bus_pos := s.bus_pos + 2, ads_ready := false }) := by
    simp [ads_read_reg, hready, hfirst, hretry]
  refine ⟨h, by rw [h], ?_⟩
  rw [h]
  simp [ads_read_reg]

theorem ads_read_reg_retry_leaves_not_ready_witness :
    ads_read_reg retry_bus demo_sensor 0 0
      = (.ESP_OK, 7 % 2 ^ 16,
          { demo_sensor with bus_pos := demo_sensor.bus_pos + 2, ads_ready := false }) :=
  (ads_read_reg_retry_leaves_not_ready retry_bus demo_sensor 0 0 7 rfl rfl rfl).1

/-! ### Dispatcher: `wifi=` with short fields -/

/-- C20: the line `wifi=;;`, received while not recording, passes the separator check
(first `;` at 5, last `;` at 6) but its second extraction starts at `5 + 6 = 11`, beyond
the length 7: `substr` throws `std::out_of_range` and no reply is produced. -/
theorem wifi_command_out_of_range (env : Env) (s : State) (hrec : s.is_recording = false) :
    find "wifi=;;".toList ';' = some 5 ∧ rfind "wifi=;;".toList ';' = some 6 ∧
    "wifi=;;".toList.length = 7 ∧
    process_request env s "wifi=;;".toList = .out_of_range s := by
  refine ⟨by decide, by decide, by decide, ?_⟩
  rw [process_wifi env s "wifi=;;".toList ";;".toList (by decide), if_neg (by simp [hrec])]
  have h1 : find ("wifi=".toList ++ ";;".toList) ';' = some 5 := by decide
  have h2 : rfind ("wifi=".toList ++ ";;".toList) ';' = some 6 := by decide
  have h3 : substr ("wifi=".toList ++ ";;".toList) 5 (size_sub 5 5) = some [] := by decide
  have h4 : substr ("wifi=".toList ++ ";;".toList) (5 + 6) (size_sub 6 (5 + 6)) = none := by
    decide
  unfold wifi_command
  rw [h1, h2]
  simp only [h3, h4]
  rfl

theorem wifi_command_out_of_range_witness :
    process_request demo_env demo_idle "wifi=;;".toList = .out_of_range demo_idle :=
  (wifi_command_out_of_range demo_env demo_idle rfl).2.2.2

end EspAdc
